import Mathlib

/-! # Proton Bridge `internal/dialer`: verification policy and pin checking

A shallow embedding of

* `extractDomain`, `BasicTLSDialer.ShouldSkipCertificateChainVerification`
  (`internal/dialer/dialer_basic.go`), and
* `TLSPinChecker.CheckCertificate`
  (`internal/dialer/dialer_pinning_checker_default.go`),

together with the Go standard-library functions they call
(`strings.Split`, `strings.Join`, `net.SplitHostPort`, `url.Parse`).

A Go `string` is an immutable sequence of bytes; it is modelled as a list of
bytes, each byte a natural number.  A Go index result `-1` ("not found") is
modelled by `none`.
-/

set_option autoImplicit false

namespace Dialer

/-- A Go string: a finite sequence of bytes. -/
abbrev GoString := List Nat

/-- UTF-8 encoding of one code point, as Go source text is encoded. -/
def utf8 (c : Char) : List Nat :=
  let n := c.toNat
  if n < 0x80 then [n]
  else if n < 0x800 then [0xC0 + n / 64, 0x80 + n % 64]
  else if n < 0x10000 then [0xE0 + n / 4096, 0x80 + (n / 64) % 64, 0x80 + n % 64]
  else [0xF0 + n / 262144, 0x80 + (n / 4096) % 64, 0x80 + (n / 64) % 64, 0x80 + n % 64]

/-- A Go string literal, as its bytes. -/
def str (s : String) : GoString := s.toList.flatMap utf8

/-! ## Package `strings` (the functions used, for one-byte separators) -/

namespace strings

/-- `strings.IndexByte(s, c)`: index of the first `c` in `s`. -/
def IndexByte : GoString → Nat → Option Nat
  | [], _ => none
  | b :: t, c => if b = c then some 0 else (IndexByte t c).map (· + 1)

/-- `strings.LastIndexByte(s, c)`: index of the last `c` in `s`. -/
def LastIndexByte : GoString → Nat → Option Nat
  | [], _ => none
  | b :: t, c =>
    match LastIndexByte t c with
    | some i => some (i + 1)
    | none => if b = c then some 0 else none

/-- `strings.Index(s, substr)`: index of the first occurrence of `substr`. -/
def Index : GoString → GoString → Option Nat
  | [], sub => if sub = [] then some 0 else none
  | b :: t, sub =>
    if sub.isPrefixOf (b :: t) then some 0 else (Index t sub).map (· + 1)

/-- `strings.Cut(s, sep)` for a one-byte `sep`: the text before and after the
first `sep`, and whether `sep` was found (when it is not: `s`, `""`, `false`). -/
def Cut (s : GoString) (sep : Nat) : GoString × GoString × Bool :=
  match IndexByte s sep with
  | some i => (s.take i, s.drop (i + 1), true)
  | none => (s, [], false)

/-- `strings.Count(s, sep)` for a one-byte `sep`. -/
def Count (s : GoString) (sep : Nat) : Nat := s.count sep

/-- `strings.HasPrefix(s, p)`. -/
def startsWith (s p : GoString) : Bool := p.isPrefixOf s

/-- `strings.HasSuffix(s, p)`. -/
def endsWith (s p : GoString) : Bool := p.isSuffixOf s

/-- `strings.Split(s, sep)` for a one-byte `sep`: the pieces of `s` between the
occurrences of `sep`; `Split("", sep)` is the one-element slice `[""]`. -/
def Split : GoString → Nat → List GoString
  | [], _ => [[]]
  | b :: t, sep =>
    if b = sep then [] :: Split t sep
    else
      match Split t sep with
      | [] => [[b]]
      | l :: ls => (b :: l) :: ls

/-- `strings.Join(elems, sep)`. -/
def Join : List GoString → GoString → GoString
  | [], _ => []
  | [a], _ => a
  | a :: b :: r, sep => a ++ sep ++ Join (b :: r) sep

/-- `strings.ToLower(s)` on ASCII text (all its uses here are on ASCII). -/
def ToLower (s : GoString) : GoString :=
  s.map fun c => if 65 ≤ c ∧ c ≤ 90 then c + 32 else c

end strings

/-! ## `extractDomain` (dialer_basic.go) -/

/-- `extractDomain(hostname)`: the last two dot-separated labels, or the
hostname itself when it has fewer than two labels. -/
def extractDomain (hostname : GoString) : GoString :=
  let parts := strings.Split hostname 46
  if parts.length ≥ 2 then
    strings.Join (parts.drop (parts.length - 2)) (str ".")
  else
    hostname

/-! ## `net.SplitHostPort` (Go standard library, net/ipsock.go) -/

namespace net

/-- The `AddrError` reasons `SplitHostPort` returns. -/
inductive AddrError where
  | missingPort
  | tooManyColons
  | missingCloseBracket
  | unexpectedOpenBracket
  | unexpectedCloseBracket
  deriving DecidableEq, Repr

/-- `net.SplitHostPort(hostport)`: splits `host:port`, `host%zone:port`,
`[host]:port` or `[host%zone]:port` into host and port. -/
def SplitHostPort (hostport : GoString) : Except AddrError (GoString × GoString) :=
  -- The port starts after the last colon.
  match strings.LastIndexByte hostport 58 with
  | none => .error .missingPort
  | some i =>
    let hostjk : Except AddrError (GoString × Nat × Nat) :=
      if hostport.head? = some 91 then
        -- Expect the first ']' just before the last ':'.
        match strings.IndexByte hostport 93 with
        | none => .error .missingCloseBracket
        | some e =>
          if e + 1 = hostport.length then .error .missingPort
          else if e + 1 = i then .ok ((hostport.take e).drop 1, 1, e + 1)
          else if hostport.get? (e + 1) = some 58 then .error .tooManyColons
          else .error .missingPort
      else
        let host := hostport.take i
        if (strings.IndexByte host 58).isSome then .error .tooManyColons
        else .ok (host, 0, 0)
    match hostjk with
    | .error err => .error err
    | .ok (host, j, k) =>
      if (strings.IndexByte (hostport.drop j) 91).isSome then
        .error .unexpectedOpenBracket
      else if (strings.IndexByte (hostport.drop k) 93).isSome then
        .error .unexpectedCloseBracket
      else
        .ok (host, hostport.drop (i + 1))

end net

/-! ## `url.Parse` (Go standard library, net/url/url.go, as of Go 1.24) -/

namespace url

/-- The escaping modes of net/url. -/
inductive encoding where
  | encodePath
  | encodePathSegment
  | encodeHost
  | encodeZone
  | encodeUserPassword
  | encodeQueryComponent
  | encodeFragment
  deriving DecidableEq, Repr

/-- The errors `url.Parse` returns (the text of each is in the comment). -/
inductive ParseError where
  /-- "net/url: invalid control character in URL" -/
  | invalidControlCharacter
  /-- "empty url" -/
  | emptyURL
  /-- "missing protocol scheme" -/
  | missingProtocolScheme
  /-- "invalid URI for request" -/
  | invalidURIForRequest
  /-- "first path segment in URL cannot contain colon" -/
  | firstPathSegmentColon
  /-- "missing ']' in host" -/
  | missingCloseBracket
  /-- "invalid port %q after host" -/
  | invalidPort (colonPort : GoString)
  /-- "net/url: invalid userinfo" -/
  | invalidUserinfo
  /-- `EscapeError`: "invalid URL escape %q" -/
  | EscapeError (s : GoString)
  /-- `InvalidHostError`: "invalid character %q in host name" -/
  | InvalidHostError (s : GoString)
  deriving DecidableEq, Repr

/-- `url.Userinfo`. -/
structure Userinfo where
  username : GoString
  password : GoString
  passwordSet : Bool
  deriving DecidableEq, Repr

/-- `url.URL`, the fields `Parse` fills from the text (`RawPath` and
`RawFragment`, which only hint at the original encoding, are left out). -/
structure URL where
  Scheme : GoString := []
  Opaque : GoString := []
  User : Option Userinfo := none
  Host : GoString := []
  Path : GoString := []
  OmitHost : Bool := false
  ForceQuery : Bool := false
  RawQuery : GoString := []
  Fragment : GoString := []
  deriving DecidableEq, Repr

/-- `ishex(c)`. -/
def ishex (c : Nat) : Bool :=
  (48 ≤ c ∧ c ≤ 57) ∨ (97 ≤ c ∧ c ≤ 102) ∨ (65 ≤ c ∧ c ≤ 70)

/-- `unhex(c)`. -/
def unhex (c : Nat) : Nat :=
  if 48 ≤ c ∧ c ≤ 57 then c - 48
  else if 97 ≤ c ∧ c ≤ 102 then c - 97 + 10
  else if 65 ≤ c ∧ c ≤ 70 then c - 65 + 10
  else 0

/-- `shouldEscape(c, mode)`: whether byte `c` must be escaped in `mode`. -/
def shouldEscape (c : Nat) (mode : encoding) : Bool :=
  -- §2.3 Unreserved characters (alphanum)
  if (97 ≤ c ∧ c ≤ 122) ∨ (65 ≤ c ∧ c ≤ 90) ∨ (48 ≤ c ∧ c ≤ 57) then false
  -- §3.2.2 Host allows sub-delims, and : [ ] < > "
  else if (mode = .encodeHost ∨ mode = .encodeZone) ∧
      c ∈ str "!$&\x27()*+,;=:[]<>\"" then false
  -- §2.3 Unreserved characters (mark)
  else if c ∈ str "-_.~" then false
  -- §2.2 Reserved characters (reserved)
  else if c ∈ str "$&+,/:;=?@" ∧ mode = .encodePath then c = 63
  else if c ∈ str "$&+,/:;=?@" ∧ mode = .encodePathSegment then
    c = 47 ∨ c = 59 ∨ c = 44 ∨ c = 63
  else if c ∈ str "$&+,/:;=?@" ∧ mode = .encodeUserPassword then
    c = 64 ∨ c = 47 ∨ c = 63 ∨ c = 58
  else if c ∈ str "$&+,/:;=?@" ∧ mode = .encodeQueryComponent then true
  else if c ∈ str "$&+,/:;=?@" ∧ mode = .encodeFragment then false
  else if mode = .encodeFragment ∧ c ∈ str "!()*" then false
  -- Everything else must be escaped.
  else true

/-- The first loop of `unescape(s, mode)`: counts the `%` escapes, checks that
they are well formed and allowed in `mode`, and records `hasPlus`. -/
def unescapeScan (mode : encoding) : GoString → Nat → Bool → Except ParseError (Nat × Bool)
  | [], n, hasPlus => .ok (n, hasPlus)
  | c :: rest, n, hasPlus =>
    if c = 37 then
      match rest with
      | a :: b :: rest2 =>
        if !ishex a || !ishex b then .error (.EscapeError ((c :: rest).take 3))
        -- in the host component %-encoding can only be used for non-ASCII
        -- bytes, and %25 escapes a percent sign in IPv6 scoped addresses
        else if mode = .encodeHost ∧ unhex a < 8 ∧ [c, a, b] ≠ str "%25" then
          .error (.EscapeError [c, a, b])
        else if mode = .encodeZone ∧ [c, a, b] ≠ str "%25" ∧
            (((unhex a <<< 4) % 256) ||| unhex b) ≠ 32 ∧
            shouldEscape (((unhex a <<< 4) % 256) ||| unhex b) .encodeHost then
          .error (.EscapeError [c, a, b])
        else unescapeScan mode rest2 (n + 1) hasPlus
      | _ => .error (.EscapeError ((c :: rest).take 3))
    else if c = 43 then
      unescapeScan mode rest n (decide (mode = .encodeQueryComponent))
    else if (mode = .encodeHost ∨ mode = .encodeZone) ∧ c < 0x80 ∧
        shouldEscape c .encodeHost then
      .error (.InvalidHostError [c])
    else unescapeScan mode rest n hasPlus

/-- The second loop of `unescape(s, mode)`: decodes the escapes of a string
the first loop accepted. -/
def unescapeBuild (mode : encoding) : GoString → GoString
  | [] => []
  | c :: rest =>
    if c = 37 then
      match rest with
      | a :: b :: rest2 =>
        (((unhex a <<< 4) % 256) ||| unhex b) :: unescapeBuild mode rest2
      | _ => []
    else if c = 43 then
      (if mode = .encodeQueryComponent then 32 else 43) :: unescapeBuild mode rest
    else c :: unescapeBuild mode rest

/-- `unescape(s, mode)`. -/
def unescape (s : GoString) (mode : encoding) : Except ParseError GoString :=
  match unescapeScan mode s 0 false with
  | .error err => .error err
  | .ok (n, hasPlus) =>
    if n = 0 ∧ hasPlus = false then .ok s else .ok (unescapeBuild mode s)

/-- `stringContainsCTLByte(s)`. -/
def stringContainsCTLByte (s : GoString) : Bool :=
  s.any fun b => b < 32 || b = 0x7f

/-- The loop of `getScheme(rawURL)`, at index `i` with `s = rawURL[i:]`. -/
def getSchemeLoop (rawURL : GoString) : GoString → Nat → Except ParseError (GoString × GoString)
  | [], _ => .ok ([], rawURL)
  | c :: s, i =>
    if (97 ≤ c ∧ c ≤ 122) ∨ (65 ≤ c ∧ c ≤ 90) then getSchemeLoop rawURL s (i + 1)
    else if (48 ≤ c ∧ c ≤ 57) ∨ c = 43 ∨ c = 45 ∨ c = 46 then
      if i = 0 then .ok ([], rawURL) else getSchemeLoop rawURL s (i + 1)
    else if c = 58 then
      if i = 0 then .error .missingProtocolScheme
      else .ok (rawURL.take i, rawURL.drop (i + 1))
    else
      -- an invalid character, so there is no valid scheme
      .ok ([], rawURL)

/-- `getScheme(rawURL)`: splits off a leading `scheme:`. -/
def getScheme (rawURL : GoString) : Except ParseError (GoString × GoString) :=
  getSchemeLoop rawURL rawURL 0

/-- `validOptionalPort(port)`: `port` is empty or `:` followed by digits. -/
def validOptionalPort (port : GoString) : Bool :=
  match port with
  | [] => true
  | c :: digits => if c ≠ 58 then false else digits.all fun b => !(b < 48 || b > 57)

/-- `validUserinfo(s)`. -/
def validUserinfo (s : GoString) : Bool :=
  s.all fun r =>
    (65 ≤ r ∧ r ≤ 90) ∨ (97 ≤ r ∧ r ≤ 122) ∨ (48 ≤ r ∧ r ≤ 57) ∨
      r ∈ str "-._:~!$&\x27()*+,;=%@"

/-- `parseHost(host)`. -/
def parseHost (host : GoString) : Except ParseError GoString :=
  if strings.startsWith host (str "[") then
    -- Parse an IP-Literal in RFC 3986 and RFC 6874.
    match strings.LastIndexByte host 93 with
    | none => .error .missingCloseBracket
    | some i =>
      let colonPort := host.drop (i + 1)
      if !validOptionalPort colonPort then .error (.invalidPort colonPort)
      else
        -- %25 introduces the zone identifier
        match strings.Index (host.take i) (str "%25") with
        | some zone =>
          match unescape (host.take zone) .encodeHost with
          | .error err => .error err
          | .ok host1 =>
            match unescape ((host.take i).drop zone) .encodeZone with
            | .error err => .error err
            | .ok host2 =>
              match unescape (host.drop i) .encodeHost with
              | .error err => .error err
              | .ok host3 => .ok (host1 ++ host2 ++ host3)
        | none => unescape host .encodeHost
  else
    match strings.LastIndexByte host 58 with
    | some i =>
      let colonPort := host.drop i
      if !validOptionalPort colonPort then .error (.invalidPort colonPort)
      else unescape host .encodeHost
    | none => unescape host .encodeHost

/-- `parseAuthority(authority)`: the user information and the host. -/
def parseAuthority (authority : GoString) : Except ParseError (Option Userinfo × GoString) :=
  let i := strings.LastIndexByte authority 64
  let hostRes :=
    match i with
    | none => parseHost authority
    | some i => parseHost (authority.drop (i + 1))
  match hostRes with
  | .error err => .error err
  | .ok host =>
    match i with
    | none => .ok (none, host)
    | some i =>
      let userinfo := authority.take i
      if !validUserinfo userinfo then .error .invalidUserinfo
      else if ¬ (58 ∈ userinfo) then
        match unescape userinfo .encodeUserPassword with
        | .error err => .error err
        | .ok userinfo => .ok (some ⟨userinfo, [], false⟩, host)
      else
        match strings.Cut userinfo 58 with
        | (username, password, _) =>
          match unescape username .encodeUserPassword with
          | .error err => .error err
          | .ok username =>
            match unescape password .encodeUserPassword with
            | .error err => .error err
            | .ok password => .ok (some ⟨username, password, true⟩, host)

/-- `parse(rawURL, viaRequest)`: parses a URL without `#fragment`. -/
def parse (rawURL : GoString) (viaRequest : Bool) : Except ParseError URL :=
  if stringContainsCTLByte rawURL then .error .invalidControlCharacter
  else if rawURL = [] ∧ viaRequest = true then .error .emptyURL
  else if rawURL = str "*" then .ok { Path := str "*" }
  else
    -- Split off possible leading "http:", "mailto:", etc.
    match getScheme rawURL with
    | .error err => .error err
    | .ok (scheme, rest) =>
      let scheme := strings.ToLower scheme
      let (rest, forceQuery, rawQuery) : GoString × Bool × GoString :=
        if strings.endsWith rest (str "?") ∧ strings.Count rest 63 = 1 then
          (rest.take (rest.length - 1), true, [])
        else
          match strings.Cut rest 63 with
          | (r, q, _) => (r, false, q)
      if ¬ strings.startsWith rest (str "/") ∧ scheme ≠ [] then
        -- We consider rootless paths per RFC 3986 as opaque.
        .ok { Scheme := scheme, Opaque := rest, ForceQuery := forceQuery, RawQuery := rawQuery }
      else if ¬ strings.startsWith rest (str "/") ∧ viaRequest = true then
        .error .invalidURIForRequest
      else if ¬ strings.startsWith rest (str "/") ∧ 58 ∈ (strings.Cut rest 47).1 then
        -- First path segment has colon. Not allowed in relative URL.
        .error .firstPathSegmentColon
      else
        let authRes : Except ParseError (Option Userinfo × GoString × Bool × GoString) :=
          if (scheme ≠ [] ∨ (viaRequest = false ∧ ¬ strings.startsWith rest (str "///"))) ∧
              strings.startsWith rest (str "//") then
            let authority := rest.drop 2
            let (authority, rest) : GoString × GoString :=
              match strings.IndexByte authority 47 with
              | some i => (authority.take i, authority.drop i)
              | none => (authority, [])
            match parseAuthority authority with
            | .error err => .error err
            | .ok (user, host) => .ok (user, host, false, rest)
          else if scheme ≠ [] ∧ strings.startsWith rest (str "/") then
            -- OmitHost is set to true when rawURL has an empty host (authority).
            .ok (none, [], true, rest)
          else .ok (none, [], false, rest)
        match authRes with
        | .error err => .error err
        | .ok (user, host, omitHost, rest) =>
          -- setPath(rest)
          match unescape rest .encodePath with
          | .error err => .error err
          | .ok path =>
            .ok { Scheme := scheme, User := user, Host := host, Path := path,
                  OmitHost := omitHost, ForceQuery := forceQuery, RawQuery := rawQuery }

/-- `url.Parse(rawURL)`: parses a raw URL into a `URL` structure. -/
def Parse (rawURL : GoString) : Except ParseError URL :=
  -- Cut off #frag
  match strings.Cut rawURL 35 with
  | (u, frag, _) =>
    match parse u false with
    | .error err => .error err
    | .ok url =>
      if frag = [] then .ok url
      else
        -- setFragment(frag)
        match unescape frag .encodeFragment with
        | .error err => .error err
        | .ok fragment => .ok { url with Fragment := fragment }

end url

/-! ## `BasicTLSDialer` (dialer_basic.go) -/

/-- `BasicTLSDialer` implements `TLSDialer`. -/
structure BasicTLSDialer where
  hostURL : GoString
  deriving DecidableEq, Repr

/-- `NewBasicTLSDialer(hostURL)` returns a new `BasicTLSDialer`. -/
def NewBasicTLSDialer (hostURL : GoString) : BasicTLSDialer :=
  { hostURL := hostURL }

/-- `ShouldSkipCertificateChainVerification(address)`: compares the domain of
the requested address with the configured host URL domain; `true` if the
domains do not match (skip verification), `false` if they do. -/
def BasicTLSDialer.ShouldSkipCertificateChainVerification
    (d : BasicTLSDialer) (address : GoString) : Bool :=
  match url.Parse d.hostURL with
  | .error _ => true
  | .ok parsedURL =>
    let addressHost :=
      match net.SplitHostPort address with
      | .ok (host, _) => host
      | .error _ => address
    let hostDomain := extractDomain parsedURL.Host
    let addressDomain := extractDomain addressHost
    decide (addressDomain ≠ hostDomain)

/-! ## `TLSPinChecker.CheckCertificate` (dialer_pinning_checker_default.go) -/

/-- An `x509.Certificate`, reduced to the fingerprint the pin check reads. -/
structure Certificate where
  fingerprint : GoString
  deriving DecidableEq, Repr

/-- `tls.ConnectionState`: the certificate material of a finished handshake. -/
structure ConnectionState where
  VerifiedChains : List (List Certificate) := []
  PeerCertificates : List Certificate := []
  deriving DecidableEq, Repr

/-- A `net.Conn`: either a `*tls.Conn`, with its connection state, or a
connection of some other dynamic type. -/
inductive Conn where
  | tlsConn (connState : ConnectionState)
  | other
  deriving DecidableEq, Repr

/-- The errors `CheckCertificate` returns. -/
inductive CheckError where
  /-- errors.New("connection is not a TLS connection") -/
  | notTLSConnection
  /-- errors.New("no verified certificate chains") -/
  | noVerifiedChains
  /-- errors.New("no peer certificates available") -/
  | noPeerCertificates
  /-- The package variable `ErrTLSMismatch`. -/
  | ErrTLSMismatch
  deriving DecidableEq, Repr

/-- A Go run-time panic. -/
inductive Panic where
  | indexOutOfRange
  deriving DecidableEq, Repr

/-- `TLSPinChecker`: the fixed set of trusted pins. -/
structure TLSPinChecker where
  trustedPins : List GoString
  deriving DecidableEq, Repr

/-- Modelled from the spec: `isCertFoundInKnownPins`, whose body is not among
the source files, "given a certificate, determine[s] whether its identifying
fingerprint belongs to the fixed trusted set". -/
def TLSPinChecker.isCertFoundInKnownPins (p : TLSPinChecker) (cert : Certificate) : Bool :=
  decide (cert.fingerprint ∈ p.trustedPins)

/-- The loop `for _, chain := range connState.VerifiedChains` of
`CheckCertificate`, with what follows it: `nil` at the first chain whose leaf
`chain[0]` is pinned, `ErrTLSMismatch` when the chains are exhausted. -/
def TLSPinChecker.checkVerifiedChains (p : TLSPinChecker) :
    List (List Certificate) → Except Panic (Option CheckError)
  | [] => .ok (some .ErrTLSMismatch)
  | chain :: chains =>
    match chain with
    | [] => .error .indexOutOfRange
    | leaf :: _ =>
      -- Check if the leaf certificate is one of the trusted pins.
      if p.isCertFoundInKnownPins leaf then .ok none
      else p.checkVerifiedChains chains

/-- `CheckCertificate(conn, certificateChainVerificationSkipped)` verifies that
the connection presents a known pinned leaf TLS certificate.  The result is
`.ok none` for Go's `nil` error, `.ok (some e)` for the error `e`, and
`.error` for a run-time panic. -/
def TLSPinChecker.CheckCertificate (p : TLSPinChecker) (conn : Conn)
    (certificateChainVerificationSkipped : Bool) : Except Panic (Option CheckError) :=
  match conn with
  | .other => .ok (some .notTLSConnection)
  | .tlsConn connState =>
    if !certificateChainVerificationSkipped then
      if connState.VerifiedChains.length = 0 then .ok (some .noVerifiedChains)
      else p.checkVerifiedChains connState.VerifiedChains
    else if connState.PeerCertificates.length = 0 then .ok (some .noPeerCertificates)
    else
      match connState.PeerCertificates with
      | [] => .error .indexOutOfRange
      | first :: _ =>
        if p.isCertFoundInKnownPins first then .ok none
        else .ok (some .ErrTLSMismatch)

/-- The host of the target address as `ShouldSkipCertificateChainVerification`
computes it: the host `net.SplitHostPort` returns, or the whole address when
`net.SplitHostPort` fails. -/
def addressHostOf (address : GoString) : GoString :=
  match net.SplitHostPort address with
  | .ok (host, _) => host
  | .error _ => address

/-! ## `BasicTLSDialer.DialTLSContext` (dialer_basic.go) -/

namespace time

/-- `time.Duration`: a count of nanoseconds (an `int64` in Go). -/
abbrev Duration := Int

/-- `time.Nanosecond`. -/
def Nanosecond : Duration := 1

/-- `time.Microsecond`. -/
def Microsecond : Duration := 1000 * Nanosecond

/-- `time.Millisecond`. -/
def Millisecond : Duration := 1000 * Microsecond

/-- `time.Second`. -/
def Second : Duration := 1000 * Millisecond

end time

/-- `net.Dialer`, the field `DialTLSContext` sets. -/
structure net.Dialer where
  Timeout : time.Duration := 0
  deriving DecidableEq, Repr

namespace tls

/-- `tls.Config`, the field `DialTLSContext` sets. -/
structure Config where
  InsecureSkipVerify : Bool := false
  deriving DecidableEq, Repr

/-- `tls.Dialer`: a net dialer and a TLS configuration. -/
structure Dialer where
  NetDialer : net.Dialer
  Config : Config
  deriving DecidableEq, Repr

end tls

/-- `DialTLSContext(ctx, network, address)` returns a connection to the given
address using the given network.  It builds a `tls.Dialer` and calls its
`DialContext`; that method of crypto/tls, which does the network connect and
the handshake, is the parameter `DialContext`. -/
def BasicTLSDialer.DialTLSContext {Context Result : Type}
    (DialContext : tls.Dialer → Context → GoString → GoString → Result)
    (d : BasicTLSDialer) (ctx : Context) (network address : GoString) : Result :=
  DialContext
    { NetDialer := { Timeout := 30 * time.Second },
      Config := { InsecureSkipVerify := d.ShouldSkipCertificateChainVerification address } }
    ctx network address

/-! ## Host names and ports, as the statements below name them -/

/-- A byte of a host name: an ASCII letter, a digit, `-`, `.` or `_`. -/
def isHostnameByte (c : Nat) : Bool :=
  (97 ≤ c && c ≤ 122) || (65 ≤ c && c ≤ 90) || (48 ≤ c && c ≤ 57) ||
    c = 45 || c = 46 || c = 95

/-- A host name: a string of host-name bytes. -/
def isHostname (h : GoString) : Bool := h.all isHostnameByte

/-- A port number: a string of decimal digits. -/
def isPortNumber (p : GoString) : Bool := p.all fun c => 48 ≤ c && c ≤ 57

/-- The string contains no `:`, `[` or `]`. -/
def noColonOrBracket (s : GoString) : Bool := s.all fun c => c ≠ 58 && c ≠ 91 && c ≠ 93

/-! ## Lemmas on `strings.Split`, `strings.Join` and `extractDomain` -/

open strings

theorem Split_ne_nil (s : GoString) (sep : Nat) : Split s sep ≠ [] := by
  induction s with
  | nil => simp [Split]
  | cons b t ih =>
    unfold Split
    split
    · simp
    · split <;> simp

theorem Split_of_not_mem (s : GoString) (sep : Nat) (h : sep ∉ s) : Split s sep = [s] := by
  induction s with
  | nil => simp [Split]
  | cons b t ih =>
    have hb : b ≠ sep := fun e => h (by simp [e])
    have ht : sep ∉ t := fun e => h (by simp [e])
    simp [Split, hb, ih ht]

theorem Split_append_sep (a t : GoString) (sep : Nat) :
    Split (a ++ sep :: t) sep = Split a sep ++ Split t sep := by
  induction a with
  | nil => simp [Split]
  | cons b a ih =>
    by_cases hb : b = sep
    · simp [Split, hb, ih]
    · simp only [List.cons_append, Split, hb, if_false, List.append_eq, ih]
      cases h : Split a sep with
      | nil => exact absurd h (Split_ne_nil a sep)
      | cons l ls => simp

theorem Split_append_right (a t : GoString) (sep : Nat) (ht : sep ∉ t) :
    ∃ ls l, Split a sep = ls ++ [l] ∧ Split (a ++ t) sep = ls ++ [l ++ t] := by
  induction a with
  | nil => exact ⟨[], [], by simp [Split], by simp [Split_of_not_mem t sep ht]⟩
  | cons b a ih =>
    obtain ⟨ls, l, h1, h2⟩ := ih
    by_cases hb : b = sep
    · exact ⟨[] :: ls, l, by simp [Split, hb, h1], by simp [Split, hb, h2]⟩
    · cases ls with
      | nil => exact ⟨[], b :: l, by simp_all [Split], by simp_all [Split]⟩
      | cons x ls => exact ⟨(b :: x) :: ls, l, by simp_all [Split], by simp_all [Split]⟩

theorem Join_Split (s : GoString) (sep : Nat) : Join (Split s sep) [sep] = s := by
  induction s with
  | nil => simp [Split, Join]
  | cons b t ih =>
    by_cases hb : b = sep
    · simp only [Split, hb, if_true]
      cases h : Split t sep with
      | nil => exact absurd h (Split_ne_nil t sep)
      | cons l ls => rw [h] at ih; simp [Join, ih]
    · simp only [Split, hb, if_false]
      cases h : Split t sep with
      | nil => exact absurd h (Split_ne_nil t sep)
      | cons l ls =>
        rw [h] at ih
        cases ls with
        | nil => simp_all [Join]
        | cons l2 ls => simp only [Join] at ih ⊢; simp [← ih]

theorem Split_Join (ls : List GoString) (sep : Nat) (hne : ls ≠ [])
    (h : ∀ l ∈ ls, sep ∉ l) : Split (Join ls [sep]) sep = ls := by
  induction ls with
  | nil => exact absurd rfl hne
  | cons a r ih =>
    cases r with
    | nil => simpa [Join] using Split_of_not_mem a sep (h a (by simp))
    | cons b r =>
      have ha : sep ∉ a := h a (by simp)
      have := ih (by simp) (fun l hl => h l (by simp [hl]))
      simp only [Join, List.append_assoc, List.singleton_append]
      rw [Split_append_sep, this, Split_of_not_mem a sep ha]
      simp

theorem Join_drop_suffix (ls : List GoString) (sep : GoString) (k : Nat) :
    Join (ls.drop k) sep <:+ Join ls sep := by
  induction k generalizing ls with
  | zero => simp
  | succ k ih =>
    cases ls with
    | nil => simp
    | cons a r =>
      simp only [List.drop_succ_cons]
      refine (ih r).trans ?_
      cases r with
      | nil => simp [Join]
      | cons b r => simp only [Join]; exact ⟨a ++ sep, by simp⟩

theorem Join_concat_suffix (ls : List GoString) (y sep : GoString) :
    y <:+ Join (ls ++ [y]) sep := by
  induction ls with
  | nil => simp [Join]
  | cons a r ih =>
    cases r with
    | nil => simp only [List.cons_append, List.nil_append, Join]; exact ⟨a ++ sep, by simp⟩
    | cons b r =>
      simp only [List.cons_append, Join] at ih ⊢
      exact ih.trans ⟨a ++ sep, by simp⟩

theorem str_dot : str "." = [46] := by decide

theorem extractDomain_suffix (x : GoString) : extractDomain x <:+ x := by
  unfold extractDomain
  simp only [str_dot]
  split
  · have := Join_drop_suffix (Split x 46) [46] ((Split x 46).length - 2)
    rwa [Join_Split] at this
  · exact List.suffix_refl x

theorem extractDomain_append_suffix (a t : GoString) (ht : 46 ∉ t) :
    t <:+ extractDomain (a ++ t) := by
  obtain ⟨ls, l, h1, h2⟩ := Split_append_right a t 46 ht
  unfold extractDomain
  simp only [h2]
  split
  · rw [List.drop_append_of_le_length
      (by simp only [List.length_append, List.length_singleton]; omega)]
    exact (List.suffix_append l t).trans (Join_concat_suffix _ _ _)
  · exact List.suffix_append a t

theorem extractDomain_prepend (p h : GoString) (hh : 2 ≤ (Split h 46).length) :
    extractDomain (p ++ str "." ++ h) = extractDomain h := by
  unfold extractDomain
  simp only [str_dot, List.append_assoc, List.singleton_append, Split_append_sep,
    List.length_append]
  have h1 : (Split p 46).length + (Split h 46).length ≥ 2 := by omega
  simp only [h1, hh, ge_iff_le, if_true]
  congr 1
  rw [List.drop_append_eq_append_drop]
  have : (Split p 46).length + (Split h 46).length - 2 - (Split p 46).length
      = (Split h 46).length - 2 := by omega
  rw [this, List.drop_eq_nil_of_le (by omega)]
  simp

/-! ## Lemmas on the index functions and `net.SplitHostPort` -/

theorem IndexByte_eq_none (s : GoString) (c : Nat) (h : c ∉ s) : IndexByte s c = none := by
  induction s with
  | nil => rfl
  | cons b t ih =>
    have hb : b ≠ c := fun e => h (by simp [e])
    have ht : c ∉ t := fun e => h (by simp [e])
    simp [IndexByte, hb, ih ht]

theorem LastIndexByte_eq_none (s : GoString) (c : Nat) (h : c ∉ s) :
    LastIndexByte s c = none := by
  induction s with
  | nil => rfl
  | cons b t ih =>
    have hb : b ≠ c := fun e => h (by simp [e])
    have ht : c ∉ t := fun e => h (by simp [e])
    simp [LastIndexByte, hb, ih ht]

theorem LastIndexByte_append_sep (a t : GoString) (c : Nat) (ht : c ∉ t) :
    LastIndexByte (a ++ c :: t) c = some a.length := by
  induction a with
  | nil => simp [LastIndexByte, LastIndexByte_eq_none t c ht]
  | cons b a ih => simp [LastIndexByte, ih]

theorem SplitHostPort_no_colon (s : GoString) (h : 58 ∉ s) :
    net.SplitHostPort s = .error .missingPort := by
  simp [net.SplitHostPort, LastIndexByte_eq_none s 58 h]

theorem SplitHostPort_host_port (h p : GoString)
    (hh : 58 ∉ h ∧ 91 ∉ h ∧ 93 ∉ h) (hp : 58 ∉ p ∧ 91 ∉ p ∧ 93 ∉ p) :
    net.SplitHostPort (h ++ 58 :: p) = .ok (h, p) := by
  have h91 : 91 ∉ h ++ 58 :: p := by simp [hh.2.1, hp.2.1]
  have h93 : 93 ∉ h ++ 58 :: p := by simp [hh.2.2, hp.2.2]
  have hhead : h.head? ≠ some 91 := by
    cases h with
    | nil => simp
    | cons b t =>
      have : b ≠ 91 := fun e => hh.2.1 (by simp [e])
      simpa using this
  simp [net.SplitHostPort, LastIndexByte_append_sep h p 58 hp.1, hhead,
    IndexByte_eq_none h 58 hh.1, IndexByte_eq_none _ 91 h91, IndexByte_eq_none _ 93 h93]

theorem addressHostOf_no_colon (s : GoString) (h : 58 ∉ s) : addressHostOf s = s := by
  simp [addressHostOf, SplitHostPort_no_colon s h]

theorem addressHostOf_host_port (h p : GoString)
    (hh : 58 ∉ h ∧ 91 ∉ h ∧ 93 ∉ h) (hp : 58 ∉ p ∧ 91 ∉ p ∧ 93 ∉ p) :
    addressHostOf (h ++ 58 :: p) = h := by
  simp [addressHostOf, SplitHostPort_host_port h p hh hp]

theorem ShouldSkip_eq (d : BasicTLSDialer) (address : GoString) :
    d.ShouldSkipCertificateChainVerification address =
      match url.Parse d.hostURL with
      | .error _ => true
      | .ok parsedURL =>
        decide (extractDomain (addressHostOf address) ≠ extractDomain parsedURL.Host) := by
  rfl

/-! ## Lemmas on `url.Parse` -/

theorem str_https : str "https://" = [104, 116, 116, 112, 115, 58, 47, 47] := by decide

theorem isHostnameByte_facts (c : Nat) (h : isHostnameByte c = true ∨ c = 58) :
    c ≠ 35 ∧ c ≠ 63 ∧ c ≠ 47 ∧ c ≠ 64 ∧ c ≠ 37 ∧ c ≠ 91 ∧ c ≠ 93 ∧ c ≠ 43 ∧ 32 ≤ c ∧ c ≠ 127 := by
  simp only [isHostnameByte, Bool.or_eq_true, Bool.and_eq_true, decide_eq_true_eq] at h
  omega

theorem shouldEscape_host_plain (c : Nat) (h : isHostnameByte c = true ∨ c = 58) :
    url.shouldEscape c .encodeHost = false := by
  simp only [isHostnameByte, Bool.or_eq_true, Bool.and_eq_true, decide_eq_true_eq] at h
  unfold url.shouldEscape
  have e1 : str "!$&\x27()*+,;=:[]<>\"" = [33, 36, 38, 39, 40, 41, 42, 43, 44, 59, 61, 58, 91, 93, 60, 62, 34] := by decide
  have e2 : str "-_.~" = [45, 95, 46, 126] := by decide
  simp only [e1, e2]
  by_cases h1 : (97 ≤ c ∧ c ≤ 122) ∨ (65 ≤ c ∧ c ≤ 90) ∨ (48 ≤ c ∧ c ≤ 57)
  · exact if_pos h1
  · have h2 : c = 45 ∨ c = 46 ∨ c = 95 ∨ c = 58 := by omega
    rcases h2 with h2 | h2 | h2 | h2 <;> subst h2 <;> decide

theorem unescapeScan_host_plain (A : GoString) (n : Nat) (hp : Bool)
    (h : ∀ c ∈ A, isHostnameByte c = true ∨ c = 58) :
    url.unescapeScan .encodeHost A n hp = .ok (n, hp) := by
  induction A with
  | nil => rfl
  | cons c t ih =>
    have hc := h c (by simp)
    have f := isHostnameByte_facts c hc
    have e := shouldEscape_host_plain c hc
    have := ih (fun x hx => h x (by simp [hx]))
    rw [url.unescapeScan.eq_def]
    simp [f.2.2.2.2.1, f.2.2.2.2.2.2.2.1, e, this]

theorem unescape_host_plain (A : GoString)
    (h : ∀ c ∈ A, isHostnameByte c = true ∨ c = 58) :
    url.unescape A .encodeHost = .ok A := by
  simp [url.unescape, unescapeScan_host_plain A 0 false h]

theorem isHostname_mem (H : GoString) (hH : isHostname H = true) :
    ∀ c ∈ H, isHostnameByte c = true := by
  simpa [isHostname] using hH

theorem isPortNumber_mem (P : GoString) (hP : isPortNumber P = true) :
    ∀ c ∈ P, 48 ≤ c ∧ c ≤ 57 := by
  simpa [isPortNumber] using hP

theorem isHostnameByte_of_digit (c : Nat) (h : 48 ≤ c ∧ c ≤ 57) : isHostnameByte c = true := by
  simp only [isHostnameByte, Bool.or_eq_true, Bool.and_eq_true, decide_eq_true_eq]
  omega

theorem hostPort_bytes (H P : GoString) (hH : isHostname H = true)
    (hP : isPortNumber P = true) :
    ∀ c ∈ H ++ 58 :: P, isHostnameByte c = true ∨ c = 58 := by
  intro c hc
  simp only [List.mem_append, List.mem_cons] at hc
  rcases hc with hc | hc | hc
  · exact Or.inl (isHostname_mem H hH c hc)
  · exact Or.inr hc
  · exact Or.inl (isHostnameByte_of_digit c (isPortNumber_mem P hP c hc))

theorem not_mem_of_bytes (A : GoString) (c : Nat)
    (hA : ∀ b ∈ A, isHostnameByte b = true ∨ b = 58)
    (hc : ¬ (isHostnameByte c = true ∨ c = 58)) : c ∉ A :=
  fun h => hc (hA c h)

theorem parseHost_hostname (H : GoString) (hH : isHostname H = true) :
    url.parseHost H = .ok H := by
  have hb : ∀ c ∈ H, isHostnameByte c = true ∨ c = 58 :=
    fun c hc => Or.inl (isHostname_mem H hH c hc)
  have h58 : (58 : Nat) ∉ H := fun h => by
    have := isHostname_mem H hH 58 h
    revert this; decide
  have h91 : ¬ strings.startsWith H (str "[") = true := by
    cases H with
    | nil => decide
    | cons b t =>
      have := (isHostnameByte_facts b (hb b (by simp))).2.2.2.2.2.1.symm
      simpa [strings.startsWith, str, utf8] using this
  simp [url.parseHost, h91, LastIndexByte_eq_none H 58 h58, unescape_host_plain H hb]

theorem validOptionalPort_port (P : GoString) (hP : isPortNumber P = true) :
    url.validOptionalPort (58 :: P) = true := by
  have := isPortNumber_mem P hP
  simp only [url.validOptionalPort, ne_eq, not_true_eq_false, if_false, List.all_eq_true]
  intro c hc
  have := this c hc
  simp; omega

theorem parseHost_hostname_port (H P : GoString) (hH : isHostname H = true)
    (hP : isPortNumber P = true) :
    url.parseHost (H ++ 58 :: P) = .ok (H ++ 58 :: P) := by
  have hb := hostPort_bytes H P hH hP
  have h58 : (58 : Nat) ∉ P := fun h => by
    have := isPortNumber_mem P hP 58 h
    omega
  have h91 : ¬ strings.startsWith (H ++ 58 :: P) (str "[") = true := by
    cases H with
    | nil => simp [strings.startsWith, str, utf8]
    | cons b t =>
      have := (isHostnameByte_facts b (hb b (by simp))).2.2.2.2.2.1.symm
      simpa [strings.startsWith, str, utf8] using this
  simp [url.parseHost, h91, LastIndexByte_append_sep H P 58 h58,
    validOptionalPort_port P hP, unescape_host_plain _ hb]

theorem Parse_https_authority (A : GoString)
    (hA : ∀ c ∈ A, isHostnameByte c = true ∨ c = 58) :
    url.Parse (str "https://" ++ A) =
      match url.parseHost A with
      | .error err => .error err
      | .ok host => .ok { Scheme := str "https", Host := host } := by
  have n35 : (35 : Nat) ∉ A := not_mem_of_bytes A 35 hA (by decide)
  have n63 : (63 : Nat) ∉ A := not_mem_of_bytes A 63 hA (by decide)
  have n47 : (47 : Nat) ∉ A := not_mem_of_bytes A 47 hA (by decide)
  have n64 : (64 : Nat) ∉ A := not_mem_of_bytes A 64 hA (by decide)
  have hctl : url.stringContainsCTLByte A = false := by
    simp only [url.stringContainsCTLByte, List.any_eq_false]
    intro c hc
    have := isHostnameByte_facts c (hA c hc)
    simp; omega
  have hcut : strings.Cut (str "https://" ++ A) 35 = (str "https://" ++ A, [], false) := by
    simp [strings.Cut, IndexByte_eq_none _ 35 (show 35 ∉ str "https://" ++ A by simp [str_https, n35])]
  have hctl2 : url.stringContainsCTLByte (str "https://" ++ A) = false := by
    simp only [url.stringContainsCTLByte, List.any_append, Bool.or_eq_false_iff] at hctl ⊢
    exact ⟨by decide, hctl⟩
  have hstar : str "https://" ++ A ≠ str "*" := by simp [str_https, str, utf8]
  have hsch : url.getScheme (str "https://" ++ A) = .ok (str "https", 47 :: 47 :: A) := by
    simp [url.getScheme, url.getSchemeLoop, str_https, str, utf8]
  have hq : strings.Cut (47 :: 47 :: A) 63 = (47 :: 47 :: A, [], false) := by
    simp [strings.Cut, IndexByte_eq_none _ 63 (show 63 ∉ 47 :: 47 :: A by simp [n63])]
  have hcnt : strings.Count (47 :: 47 :: A) 63 = 0 := by
    simp [strings.Count, List.count_eq_zero.mpr n63]
  have hlow : strings.ToLower (str "https") = str "https" := by decide
  have hne : str "https" ≠ [] := by decide
  have hs1 : strings.startsWith (47 :: 47 :: A) (str "/") = true := by
    simp [strings.startsWith, str, utf8]
  have hs2 : strings.startsWith (47 :: 47 :: A) (str "//") = true := by
    simp [strings.startsWith, str, utf8]
  have hauth : url.parseAuthority A = match url.parseHost A with
      | .error err => .error err
      | .ok host => .ok (none, host) := by
    simp only [url.parseAuthority, LastIndexByte_eq_none A 64 n64]
  have hpath : url.unescape [] .encodePath = .ok [] := rfl
  simp only [url.Parse, hcut, url.parse, hctl2, hstar, hsch, hq, hcnt, hlow, hne, hs1, hs2]
  cases hph : url.parseHost A <;>
    simp [IndexByte_eq_none A 47 n47, hauth, hph, hs1, hs2, hne, hpath]

/-! ## Lemmas on `CheckCertificate` -/

theorem checkVerifiedChains_ok_none_iff (p : TLSPinChecker) (chains : List (List Certificate))
    (hchains : ∀ chain ∈ chains, chain ≠ []) :
    p.checkVerifiedChains chains = .ok none ↔
      ∃ chain ∈ chains, ∃ leaf, chain.head? = some leaf ∧
        p.isCertFoundInKnownPins leaf = true := by
  induction chains with
  | nil => simp [TLSPinChecker.checkVerifiedChains]
  | cons chain chains ih =>
    have ih := ih (fun c hc => hchains c (by simp [hc]))
    cases chain with
    | nil => exact absurd rfl (hchains [] (by simp))
    | cons leaf rest =>
      by_cases hpin : p.isCertFoundInKnownPins leaf = true
      · simp [TLSPinChecker.checkVerifiedChains, hpin]
      · simp [TLSPinChecker.checkVerifiedChains, hpin, ih]

theorem checkVerifiedChains_result (p : TLSPinChecker) (chains : List (List Certificate))
    (hchains : ∀ chain ∈ chains, chain ≠ []) :
    p.checkVerifiedChains chains = .ok none ∨
      p.checkVerifiedChains chains = .ok (some .ErrTLSMismatch) := by
  induction chains with
  | nil => simp [TLSPinChecker.checkVerifiedChains]
  | cons chain chains ih =>
    have ih := ih (fun c hc => hchains c (by simp [hc]))
    cases chain with
    | nil => exact absurd rfl (hchains [] (by simp))
    | cons leaf rest =>
      by_cases hpin : p.isCertFoundInKnownPins leaf = true
      · simp [TLSPinChecker.checkVerifiedChains, hpin]
      · simpa [TLSPinChecker.checkVerifiedChains, hpin] using ih

theorem checkVerifiedChains_ok_none_imp (p : TLSPinChecker) (chains : List (List Certificate))
    (h : p.checkVerifiedChains chains = .ok none) :
    ∃ chain ∈ chains, ∃ leaf, chain.head? = some leaf ∧
      p.isCertFoundInKnownPins leaf = true := by
  induction chains with
  | nil => simp [TLSPinChecker.checkVerifiedChains] at h
  | cons chain chains ih =>
    cases chain with
    | nil => simp [TLSPinChecker.checkVerifiedChains] at h
    | cons leaf rest =>
      by_cases hpin : p.isCertFoundInKnownPins leaf = true
      · exact ⟨leaf :: rest, by simp, leaf, rfl, hpin⟩
      · simp only [TLSPinChecker.checkVerifiedChains, hpin] at h
        obtain ⟨c, hc, l, hl, hp⟩ := ih h
        exact ⟨c, by simp [hc], l, hl, hp⟩

theorem CheckCertificate_verified (p : TLSPinChecker) (connState : ConnectionState)
    (hne : connState.VerifiedChains ≠ []) :
    p.CheckCertificate (.tlsConn connState) false =
      p.checkVerifiedChains connState.VerifiedChains := by
  simp [TLSPinChecker.CheckCertificate, hne]

/-! ## Further lemmas on `strings.Split` -/

theorem Split_no_sep (s : GoString) (sep : Nat) : ∀ l ∈ Split s sep, sep ∉ l := by
  induction s with
  | nil => simp [Split]
  | cons b t ih =>
    by_cases hb : b = sep
    · intro l hl
      simp only [Split, hb, if_true, List.mem_cons] at hl
      rcases hl with hl | hl
      · simp [hl]
      · exact ih l hl
    · intro l hl
      simp only [Split, hb, if_false] at hl
      cases h : Split t sep with
      | nil => exact absurd h (Split_ne_nil t sep)
      | cons x xs =>
        rw [h] at hl ih
        simp only [List.mem_cons] at hl
        rcases hl with hl | hl
        · subst hl
          have := ih x (by simp)
          simp only [List.mem_cons, not_or]
          exact ⟨fun e => hb e.symm, this⟩
        · exact ih l (by simp [hl])

theorem Split_length_two_le_iff (s : GoString) (sep : Nat) :
    2 ≤ (Split s sep).length ↔ sep ∈ s := by
  constructor
  · intro h
    by_contra hn
    rw [Split_of_not_mem s sep hn] at h
    simp at h
  · intro h
    obtain ⟨a, t, rfl⟩ := List.append_of_mem h
    rw [Split_append_sep, List.length_append]
    have h1 := List.length_pos.mpr (Split_ne_nil a sep)
    have h2 := List.length_pos.mpr (Split_ne_nil t sep)
    omega

theorem last_two_of_length (ls : List GoString) (h : 2 ≤ ls.length) :
    ∃ front a b, ls = front ++ [a, b] ∧ ls.drop (ls.length - 2) = [a, b] := by
  have hlen : (ls.drop (ls.length - 2)).length = 2 := by
    rw [List.length_drop]; omega
  match hd : ls.drop (ls.length - 2), hlen with
  | [a, b], _ =>
    refine ⟨ls.take (ls.length - 2), a, b, ?_, rfl⟩
    rw [← hd, List.take_append_drop]

theorem CheckCertificate_ok_none_imp (p : TLSPinChecker) (conn : Conn) (skipped : Bool)
    (hok : p.CheckCertificate conn skipped = .ok none) :
    ∃ connState, conn = .tlsConn connState ∧
      (skipped = false →
        ∃ chain ∈ connState.VerifiedChains, ∃ leaf, chain.head? = some leaf ∧
          p.isCertFoundInKnownPins leaf = true) ∧
      (skipped = true →
        ∃ first, connState.PeerCertificates.head? = some first ∧
          p.isCertFoundInKnownPins first = true) := by
  cases conn with
  | other => simp [TLSPinChecker.CheckCertificate] at hok
  | tlsConn connState =>
    refine ⟨connState, rfl, ?_, ?_⟩
    · intro hs
      subst hs
      by_cases hne : connState.VerifiedChains = []
      · simp [TLSPinChecker.CheckCertificate, hne] at hok
      · rw [CheckCertificate_verified p connState hne] at hok
        exact checkVerifiedChains_ok_none_imp p _ hok
    · intro hs
      subst hs
      cases hpc : connState.PeerCertificates with
      | nil => simp [TLSPinChecker.CheckCertificate, hpc] at hok
      | cons first others =>
        refine ⟨first, rfl, ?_⟩
        by_cases hpin : p.isCertFoundInKnownPins first = true
        · exact hpin
        · simp [TLSPinChecker.CheckCertificate, hpc, hpin] at hok

/-! ## Lemmas on the decision for `https://host` and `https://host:port` -/

theorem str_colon : str ":" = [58] := by decide

theorem Parse_https_hostname (H : GoString) (hH : isHostname H = true) :
    url.Parse (str "https://" ++ H) = .ok { Scheme := str "https", Host := H } := by
  rw [Parse_https_authority H (fun c hc => Or.inl (isHostname_mem H hH c hc)),
    parseHost_hostname H hH]

theorem Parse_https_hostname_port (H P : GoString) (hH : isHostname H = true)
    (hP : isPortNumber P = true) :
    url.Parse (str "https://" ++ H ++ str ":" ++ P) =
      .ok { Scheme := str "https", Host := H ++ str ":" ++ P } := by
  have e : str "https://" ++ H ++ str ":" ++ P = str "https://" ++ (H ++ 58 :: P) := by
    simp [str_colon]
  have e2 : H ++ str ":" ++ P = H ++ 58 :: P := by simp [str_colon]
  rw [e, e2, Parse_https_authority _ (hostPort_bytes H P hH hP),
    parseHost_hostname_port H P hH hP]

theorem ShouldSkip_of_Parse (hostURL address : GoString) (parsedURL : url.URL)
    (hparse : url.Parse hostURL = .ok parsedURL) :
    (NewBasicTLSDialer hostURL).ShouldSkipCertificateChainVerification address =
      decide (extractDomain (addressHostOf address) ≠ extractDomain parsedURL.Host) := by
  rw [ShouldSkip_eq]
  simp [NewBasicTLSDialer, hparse]

theorem colon_mem_extractDomain_host_port (H P : GoString) (hP : isPortNumber P = true) :
    58 ∈ extractDomain (H ++ str ":" ++ P) := by
  have e2 : H ++ str ":" ++ P = H ++ 58 :: P := by simp [str_colon]
  have h46 : (46 : Nat) ∉ 58 :: P := by
    intro h
    simp only [List.mem_cons] at h
    rcases h with h | h
    · omega
    · have := isPortNumber_mem P hP 46 h
      omega
  rw [e2]
  exact (extractDomain_append_suffix H (58 :: P) h46).subset (by simp)

theorem colon_not_mem_extractDomain (x : GoString) (h : 58 ∉ x) : 58 ∉ extractDomain x :=
  fun hm => h ((extractDomain_suffix x).subset hm)

theorem noColonOrBracket_mem (s : GoString) (h : noColonOrBracket s = true) :
    58 ∉ s ∧ 91 ∉ s ∧ 93 ∉ s := by
  simp only [noColonOrBracket, List.all_eq_true, Bool.and_eq_true, decide_eq_true_eq] at h
  exact ⟨fun m => (h 58 m).1.1 rfl, fun m => (h 91 m).1.2 rfl, fun m => (h 93 m).2 rfl⟩

theorem noColonOrBracket_prepend (p h : GoString) (hp : noColonOrBracket p = true)
    (hh : noColonOrBracket h = true) : noColonOrBracket (p ++ str "." ++ h) = true := by
  simp only [noColonOrBracket, List.all_append, Bool.and_eq_true] at hp hh ⊢
  exact ⟨⟨hp, by decide⟩, hh⟩

theorem isHostname_prepend (p h : GoString) (hp : isHostname p = true)
    (hh : isHostname h = true) : isHostname (p ++ str "." ++ h) = true := by
  simp only [isHostname, List.all_append, Bool.and_eq_true] at hp hh ⊢
  exact ⟨⟨hp, by decide⟩, hh⟩

theorem ShouldSkip_congr_domain (d : BasicTLSDialer) (a b : GoString)
    (h : extractDomain (addressHostOf a) = extractDomain (addressHostOf b)) :
    d.ShouldSkipCertificateChainVerification a = d.ShouldSkipCertificateChainVerification b := by
  rw [ShouldSkip_eq, ShouldSkip_eq, h]

/-! ## The claims -/

/-- C1: when the endpoint URL parses, `ShouldSkipCertificateChainVerification`
returns `true` if and only if `extractDomain` of the target host (the host
`net.SplitHostPort` gives, or the whole address) differs from `extractDomain`
of the endpoint host (the `Host` field of the parsed URL), and `false` exactly
when the two are equal. -/
theorem C1_skip_iff_domains_differ (hostURL address : GoString) (parsedURL : url.URL)
    (hparse : url.Parse hostURL = .ok parsedURL) :
    ((NewBasicTLSDialer hostURL).ShouldSkipCertificateChainVerification address = true ↔
        extractDomain (addressHostOf address) ≠ extractDomain parsedURL.Host) ∧
      ((NewBasicTLSDialer hostURL).ShouldSkipCertificateChainVerification address = false ↔
        extractDomain (addressHostOf address) = extractDomain parsedURL.Host) := by
  rw [ShouldSkip_eq]
  simp [NewBasicTLSDialer, hparse]

/-- Witness for C1: the two examples of the claim, endpoint
`https://mail-api.proton.me` (same domain, `false`) and endpoint
`https://mail.google.com` (different domain, `true`), both with address
`mail-api.proton.me:443`. -/
theorem C1_skip_iff_domains_differ_witness :
    (NewBasicTLSDialer (str "https://mail-api.proton.me")).ShouldSkipCertificateChainVerification
        (str "mail-api.proton.me:443") = false ∧
      (NewBasicTLSDialer (str "https://mail.google.com")).ShouldSkipCertificateChainVerification
        (str "mail-api.proton.me:443") = true :=
  ⟨(C1_skip_iff_domains_differ (str "https://mail-api.proton.me") (str "mail-api.proton.me:443")
      { Scheme := str "https", Host := str "mail-api.proton.me" } rfl).2.mpr (by decide),
   (C1_skip_iff_domains_differ (str "https://mail.google.com") (str "mail-api.proton.me:443")
      { Scheme := str "https", Host := str "mail.google.com" } rfl).1.mpr (by decide)⟩

/-- C2: `extractDomain(h)` works on the labels of `h`, the pieces
`strings.Split(h, ".")` gives: they are free of dots and joined by dots give
back `h`, and there are at least two of them exactly when `h` contains a dot.
With at least two labels the result is exactly the last two labels joined by
a dot; with fewer than two the result is `h` unchanged. -/
theorem C2_extractDomain_last_two_labels (h : GoString) :
    strings.Join (strings.Split h 46) (str ".") = h ∧
      (∀ label ∈ strings.Split h 46, 46 ∉ label) ∧
      (2 ≤ (strings.Split h 46).length ↔ 46 ∈ h) ∧
      (2 ≤ (strings.Split h 46).length →
        ∃ front a b, strings.Split h 46 = front ++ [a, b] ∧
          extractDomain h = a ++ str "." ++ b) ∧
      ((strings.Split h 46).length < 2 → extractDomain h = h) := by
  refine ⟨by rw [str_dot]; exact Join_Split h 46, Split_no_sep h 46,
    Split_length_two_le_iff h 46, ?_, ?_⟩
  · intro hlen
    obtain ⟨front, a, b, h1, h2⟩ := last_two_of_length _ hlen
    refine ⟨front, a, b, h1, ?_⟩
    simp only [extractDomain, hlen, ge_iff_le, if_true, h2, Join]
  · intro hlen
    have : ¬ 2 ≤ (strings.Split h 46).length := by omega
    simp only [extractDomain, ge_iff_le, this, if_false]

/-- Witness for C2: a host name without a dot and one with three labels. -/
theorem C2_extractDomain_last_two_labels_witness :
    extractDomain (str "localhost") = str "localhost" ∧
      ∃ front a b, strings.Split (str "mail-api.proton.me") 46 = front ++ [a, b] ∧
        extractDomain (str "mail-api.proton.me") = a ++ str "." ++ b :=
  ⟨(C2_extractDomain_last_two_labels (str "localhost")).2.2.2.2 (by decide),
   (C2_extractDomain_last_two_labels (str "mail-api.proton.me")).2.2.2.1 (by decide)⟩

/-- C3: with the skip flag `false` and at least one verified chain, each
non-empty, `CheckCertificate` returns success if and only if the leaf (first
certificate) of at least one verified chain is pinned, and returns
`ErrTLSMismatch` when no chain has a pinned leaf. -/
theorem C3_verified_chain_leaf_pinned (p : TLSPinChecker) (connState : ConnectionState)
    (hne : connState.VerifiedChains ≠ [])
    (hchains : ∀ chain ∈ connState.VerifiedChains, chain ≠ []) :
    (p.CheckCertificate (.tlsConn connState) false = .ok none ↔
        ∃ chain ∈ connState.VerifiedChains, ∃ leaf, chain.head? = some leaf ∧
          p.isCertFoundInKnownPins leaf = true) ∧
      ((¬ ∃ chain ∈ connState.VerifiedChains, ∃ leaf, chain.head? = some leaf ∧
          p.isCertFoundInKnownPins leaf = true) →
        p.CheckCertificate (.tlsConn connState) false = .ok (some .ErrTLSMismatch)) := by
  rw [CheckCertificate_verified p connState hne]
  have hiff := checkVerifiedChains_ok_none_iff p connState.VerifiedChains hchains
  refine ⟨hiff, fun hno => ?_⟩
  rcases checkVerifiedChains_result p connState.VerifiedChains hchains with h | h
  · exact absurd (hiff.mp h) hno
  · exact h

/-- Witness for C3: two verified chains, the leaf of the second one pinned. -/
theorem C3_verified_chain_leaf_pinned_witness :
    (⟨[str "pinA"]⟩ : TLSPinChecker).CheckCertificate
      (.tlsConn { VerifiedChains := [[⟨str "leafX"⟩, ⟨str "pinA"⟩], [⟨str "pinA"⟩]] })
      false = .ok none :=
  (C3_verified_chain_leaf_pinned ⟨[str "pinA"]⟩
    { VerifiedChains := [[⟨str "leafX"⟩, ⟨str "pinA"⟩], [⟨str "pinA"⟩]] }
    (by decide) (by decide)).1.mpr
    ⟨[⟨str "pinA"⟩], by decide, ⟨str "pinA"⟩, rfl, by decide⟩

/-- C4: with the skip flag `true` and at least one peer certificate,
`CheckCertificate` returns success if and only if the first peer certificate is
pinned; when it is not pinned the result is `ErrTLSMismatch`, whatever the
other presented certificates are (also when one of them is pinned). -/
theorem C4_first_peer_certificate_pinned (p : TLSPinChecker) (connState : ConnectionState)
    (first : Certificate) (others : List Certificate)
    (hpeer : connState.PeerCertificates = first :: others) :
    (p.CheckCertificate (.tlsConn connState) true = .ok none ↔
        p.isCertFoundInKnownPins first = true) ∧
      (p.isCertFoundInKnownPins first = false →
        p.CheckCertificate (.tlsConn connState) true = .ok (some .ErrTLSMismatch)) := by
  by_cases hpin : p.isCertFoundInKnownPins first = true
  · simp [TLSPinChecker.CheckCertificate, hpeer, hpin]
  · simp [TLSPinChecker.CheckCertificate, hpeer, hpin]

/-- Witness for C4: the first peer certificate is not pinned and the second
one is; the result is `ErrTLSMismatch`. -/
theorem C4_first_peer_certificate_pinned_witness :
    (⟨[str "pinA"]⟩ : TLSPinChecker).isCertFoundInKnownPins ⟨str "pinA"⟩ = true ∧
      (⟨[str "pinA"]⟩ : TLSPinChecker).CheckCertificate
        (.tlsConn { PeerCertificates := [⟨str "leafX"⟩, ⟨str "pinA"⟩] }) true
        = .ok (some .ErrTLSMismatch) :=
  ⟨by decide,
   (C4_first_peer_certificate_pinned ⟨[str "pinA"]⟩
      { PeerCertificates := [⟨str "leafX"⟩, ⟨str "pinA"⟩] } ⟨str "leafX"⟩ [⟨str "pinA"⟩]
      rfl).2 (by decide)⟩

/-- C5: trust is never granted without a pin match.  If `CheckCertificate`
returns success, the connection is a TLS connection and a certificate of it is
pinned: the leaf of a verified chain when the flag is `false`, the first peer
certificate when the flag is `true`.  With an empty pinned set
`CheckCertificate` never returns success. -/
theorem C5_success_needs_pin_match (p : TLSPinChecker) (conn : Conn) (skipped : Bool) :
    (p.CheckCertificate conn skipped = .ok none →
        ∃ connState, conn = .tlsConn connState ∧
          (skipped = false →
            ∃ chain ∈ connState.VerifiedChains, ∃ leaf, chain.head? = some leaf ∧
              p.isCertFoundInKnownPins leaf = true) ∧
          (skipped = true →
            ∃ first, connState.PeerCertificates.head? = some first ∧
              p.isCertFoundInKnownPins first = true)) ∧
      (p.trustedPins = [] → p.CheckCertificate conn skipped ≠ .ok none) := by
  have key := CheckCertificate_ok_none_imp p conn skipped
  refine ⟨key, fun hempty hok => ?_⟩
  obtain ⟨connState, _, h1, h2⟩ := key hok
  cases skipped with
  | false =>
    obtain ⟨_, _, leaf, _, hp⟩ := h1 rfl
    simp [TLSPinChecker.isCertFoundInKnownPins, hempty] at hp
  | true =>
    obtain ⟨first, _, hp⟩ := h2 rfl
    simp [TLSPinChecker.isCertFoundInKnownPins, hempty] at hp

/-- Witness for C5: a connection accepted with the flag `true` has a pinned
first peer certificate, and the same connection is refused by a checker with
an empty pinned set. -/
theorem C5_success_needs_pin_match_witness :
    (∃ first, [(⟨str "pinA"⟩ : Certificate)].head? = some first ∧
        (⟨[str "pinA"]⟩ : TLSPinChecker).isCertFoundInKnownPins first = true) ∧
      (⟨[]⟩ : TLSPinChecker).CheckCertificate
        (.tlsConn { PeerCertificates := [⟨str "pinA"⟩] }) true ≠ .ok none := by
  refine ⟨?_, (C5_success_needs_pin_match ⟨[]⟩
    (.tlsConn { PeerCertificates := [⟨str "pinA"⟩] }) true).2 rfl⟩
  obtain ⟨connState, hc, _, h2⟩ := (C5_success_needs_pin_match ⟨[str "pinA"]⟩
    (.tlsConn { PeerCertificates := [⟨str "pinA"⟩] }) true).1 rfl
  cases hc
  exact h2 rfl

/-- C6: if the configured endpoint URL fails to parse,
`ShouldSkipCertificateChainVerification` returns `true` for every address. -/
theorem C6_malformed_endpoint_skips (hostURL address : GoString) (err : url.ParseError)
    (hparse : url.Parse hostURL = .error err) :
    (NewBasicTLSDialer hostURL).ShouldSkipCertificateChainVerification address = true := by
  rw [ShouldSkip_eq]
  simp [NewBasicTLSDialer, hparse]

/-- Witness for C6: the endpoint `://proton.me` has no protocol scheme, and
the address is one of the same host. -/
theorem C6_malformed_endpoint_skips_witness :
    url.Parse (str "://proton.me") = .error .missingProtocolScheme ∧
      (NewBasicTLSDialer (str "://proton.me")).ShouldSkipCertificateChainVerification
        (str "proton.me:443") = true :=
  ⟨rfl, C6_malformed_endpoint_skips (str "://proton.me") (str "proton.me:443")
    .missingProtocolScheme rfl⟩

/-- C7 (as amended): a port on the endpoint URL is not ignored.  For every
host name `H`, port number `P` and target address, the decision with endpoint
`https://H:P` compares the target's domain with `extractDomain` of the URL's
`Host` field `H:P`, port included, and the decision with endpoint `https://H`
compares it with `extractDomain(H)`; the decision depends only on the `Host`
field of the endpoint and the host of the target. -/
theorem C7_endpoint_port_is_compared (H P address : GoString)
    (hH : isHostname H = true) (hP : isPortNumber P = true) :
    (NewBasicTLSDialer (str "https://" ++ H ++ str ":" ++ P)).ShouldSkipCertificateChainVerification
        address =
          decide (extractDomain (addressHostOf address) ≠ extractDomain (H ++ str ":" ++ P)) ∧
      (NewBasicTLSDialer (str "https://" ++ H)).ShouldSkipCertificateChainVerification address =
          decide (extractDomain (addressHostOf address) ≠ extractDomain H) :=
  ⟨ShouldSkip_of_Parse _ address _ (Parse_https_hostname_port H P hH hP),
   ShouldSkip_of_Parse _ address _ (Parse_https_hostname H hH)⟩

/-- Witness for C7: endpoint `https://proton.me:8080` and address
`proton.me:443`; the compared domains are `proton.me` and `proton.me:8080`,
and the result is `true`. -/
theorem C7_endpoint_port_is_compared_witness :
    (NewBasicTLSDialer (str "https://" ++ str "proton.me" ++ str ":" ++ str "8080")).ShouldSkipCertificateChainVerification
        (str "proton.me:443") = true ∧
      extractDomain (addressHostOf (str "proton.me:443")) = str "proton.me" ∧
      extractDomain (str "proton.me" ++ str ":" ++ str "8080") = str "proton.me:8080" :=
  ⟨(C7_endpoint_port_is_compared (str "proton.me") (str "8080") (str "proton.me:443")
      (by decide) (by decide)).1.trans (by decide), by decide, by decide⟩

/-- Counterexample to C7: with address `proton.me:443`, endpoint
`https://proton.me:8080` gives `true` while endpoint `https://proton.me`
gives `false`. -/
theorem C7_counterexample :
    (NewBasicTLSDialer (str "https://proton.me:8080")).ShouldSkipCertificateChainVerification
        (str "proton.me:443") = true ∧
      (NewBasicTLSDialer (str "https://proton.me")).ShouldSkipCertificateChainVerification
        (str "proton.me:443") = false := by
  decide

/-- C8: when the endpoint URL carries an explicit port, `https://H:P` for a
host name `H` and a port number `P`, `ShouldSkipCertificateChainVerification`
returns `true` for every target address of the form `host` or `host:port`
whose host contains no `:`, also when the host names are identical: for every
address without `:`, which is used whole as the host, and for every address
that `net.SplitHostPort` splits into a host without `:` and a port.  Every
`host:port` with host and port free of `:`, `[` and `]` is split that way. -/
theorem C8_endpoint_with_port_always_skips (H P : GoString)
    (hH : isHostname H = true) (hP : isPortNumber P = true) :
    (∀ address, 58 ∉ address →
        (NewBasicTLSDialer (str "https://" ++ H ++ str ":" ++ P)).ShouldSkipCertificateChainVerification
          address = true) ∧
      (∀ address host port, net.SplitHostPort address = .ok (host, port) → 58 ∉ host →
        (NewBasicTLSDialer (str "https://" ++ H ++ str ":" ++ P)).ShouldSkipCertificateChainVerification
          address = true) ∧
      (∀ host port, noColonOrBracket host = true → noColonOrBracket port = true →
        net.SplitHostPort (host ++ str ":" ++ port) = .ok (host, port) ∧
          (NewBasicTLSDialer (str "https://" ++ H ++ str ":" ++ P)).ShouldSkipCertificateChainVerification
            (host ++ str ":" ++ port) = true) := by
  have hin := colon_mem_extractDomain_host_port H P hP
  have key : ∀ address, 58 ∉ addressHostOf address →
      (NewBasicTLSDialer (str "https://" ++ H ++ str ":" ++ P)).ShouldSkipCertificateChainVerification
        address = true := by
    intro address hno
    rw [ShouldSkip_of_Parse _ address _ (Parse_https_hostname_port H P hH hP)]
    simp only [decide_eq_true_eq]
    intro heq
    exact colon_not_mem_extractDomain _ hno (heq ▸ hin)
  have split : ∀ address host port, net.SplitHostPort address = .ok (host, port) → 58 ∉ host →
      (NewBasicTLSDialer (str "https://" ++ H ++ str ":" ++ P)).ShouldSkipCertificateChainVerification
        address = true := by
    intro address host port hsplit hhost
    refine key address ?_
    simp only [addressHostOf, hsplit]
    exact hhost
  refine ⟨fun address haddr => key address ?_, split, fun host port hhost hport => ?_⟩
  · rw [addressHostOf_no_colon address haddr]; exact haddr
  · have e : host ++ str ":" ++ port = host ++ 58 :: port := by simp [str_colon]
    have hsplit : net.SplitHostPort (host ++ str ":" ++ port) = .ok (host, port) := by
      rw [e]
      exact SplitHostPort_host_port host port (noColonOrBracket_mem host hhost)
        (noColonOrBracket_mem port hport)
    exact ⟨hsplit, split _ host port hsplit (noColonOrBracket_mem host hhost).1⟩

/-- Witness for C8: the case of the test, endpoint `https://proton.me:8080`
and address `proton.me:443`, which `net.SplitHostPort` splits into the host
`proton.me` and the port `443`; the same endpoint with the address
`proton.me`. -/
theorem C8_endpoint_with_port_always_skips_witness :
    net.SplitHostPort (str "proton.me:443") = .ok (str "proton.me", str "443") ∧
      (NewBasicTLSDialer (str "https://" ++ str "proton.me" ++ str ":" ++ str "8080")).ShouldSkipCertificateChainVerification
        (str "proton.me:443") = true ∧
      (NewBasicTLSDialer (str "https://" ++ str "proton.me" ++ str ":" ++ str "8080")).ShouldSkipCertificateChainVerification
        (str "proton.me") = true :=
  ⟨rfl,
   (C8_endpoint_with_port_always_skips (str "proton.me") (str "8080") (by decide)
      (by decide)).2.1 (str "proton.me:443") (str "proton.me") (str "443") rfl (by decide),
   (C8_endpoint_with_port_always_skips (str "proton.me") (str "8080") (by decide)
      (by decide)).1 (str "proton.me") (by decide)⟩

/-- C9: the port of the target address is stripped before the domain is
extracted.  For every dialer, every host name `h` without `:`, `[` or `]` and
every port `p` (a string without `:`, `[` or `]`), `net.SplitHostPort` splits
`h:p` into `h` and `p`, the decision for `h:p` is the decision for `h`, and
the address `h`, which has no port, is used whole as the host. -/
theorem C9_target_port_stripped (d : BasicTLSDialer) (h p : GoString)
    (hh : noColonOrBracket h = true) (hp : noColonOrBracket p = true) :
    d.ShouldSkipCertificateChainVerification (h ++ str ":" ++ p) =
        d.ShouldSkipCertificateChainVerification h ∧
      net.SplitHostPort (h ++ str ":" ++ p) = .ok (h, p) ∧
      addressHostOf h = h := by
  have e : h ++ str ":" ++ p = h ++ 58 :: p := by simp [str_colon]
  have mh := noColonOrBracket_mem h hh
  have mp := noColonOrBracket_mem p hp
  refine ⟨?_, by rw [e]; exact SplitHostPort_host_port h p mh mp,
    addressHostOf_no_colon h mh.1⟩
  rw [ShouldSkip_eq, ShouldSkip_eq, e, addressHostOf_host_port h p mh mp,
    addressHostOf_no_colon h mh.1]

/-- Witness for C9: endpoint `https://mail-api.pascal.proton.black` with the
addresses `proton.me:332` and `proton.me` of the test. -/
theorem C9_target_port_stripped_witness :
    (NewBasicTLSDialer (str "https://mail-api.pascal.proton.black")).ShouldSkipCertificateChainVerification
        (str "proton.me" ++ str ":" ++ str "332") =
      (NewBasicTLSDialer (str "https://mail-api.pascal.proton.black")).ShouldSkipCertificateChainVerification
        (str "proton.me") :=
  (C9_target_port_stripped (NewBasicTLSDialer (str "https://mail-api.pascal.proton.black"))
    (str "proton.me") (str "332") (by decide) (by decide)).1

/-- C10: subdomain depth beyond the last two labels is ignored.  For every host
name `h` with at least two labels and every prefix `p`,
`extractDomain(p + "." + h)` equals `extractDomain(h)`.  So the decision does
not change when `p` is prepended to the target host (`p` and `h` without `:`,
`[` or `]`, with or without a port on the address), nor when it is prepended
to the endpoint host: for any two endpoint URLs whose parsed hosts are `p.h`
and `h`, and in particular for `https://p.h` and `https://h`. -/
theorem C10_subdomain_depth_ignored (p h : GoString)
    (hlabels : 2 ≤ (strings.Split h 46).length) :
    extractDomain (p ++ str "." ++ h) = extractDomain h ∧
      (∀ d : BasicTLSDialer, noColonOrBracket p = true → noColonOrBracket h = true →
        d.ShouldSkipCertificateChainVerification (p ++ str "." ++ h) =
            d.ShouldSkipCertificateChainVerification h ∧
          ∀ port, noColonOrBracket port = true →
            d.ShouldSkipCertificateChainVerification (p ++ str "." ++ h ++ str ":" ++ port) =
              d.ShouldSkipCertificateChainVerification (h ++ str ":" ++ port)) ∧
      (∀ (hostURL1 hostURL2 : GoString) (u1 u2 : url.URL) (address : GoString),
        url.Parse hostURL1 = .ok u1 → url.Parse hostURL2 = .ok u2 →
        u1.Host = p ++ str "." ++ h → u2.Host = h →
        (NewBasicTLSDialer hostURL1).ShouldSkipCertificateChainVerification address =
          (NewBasicTLSDialer hostURL2).ShouldSkipCertificateChainVerification address) ∧
      (isHostname p = true → isHostname h = true → ∀ address,
        (NewBasicTLSDialer (str "https://" ++ (p ++ str "." ++ h))).ShouldSkipCertificateChainVerification
            address =
          (NewBasicTLSDialer (str "https://" ++ h)).ShouldSkipCertificateChainVerification
            address) := by
  have hdom := extractDomain_prepend p h hlabels
  refine ⟨hdom, ?_, ?_, ?_⟩
  · intro d hp hh
    have mh := noColonOrBracket_mem h hh
    have hph := noColonOrBracket_prepend p h hp hh
    have mph := noColonOrBracket_mem _ hph
    refine ⟨ShouldSkip_congr_domain d _ _ ?_, fun port hport => ShouldSkip_congr_domain d _ _ ?_⟩
    · rw [addressHostOf_no_colon _ mph.1, addressHostOf_no_colon _ mh.1, hdom]
    · have mp := noColonOrBracket_mem port hport
      have e1 : p ++ str "." ++ h ++ str ":" ++ port = (p ++ str "." ++ h) ++ 58 :: port := by
        simp [str_colon]
      have e2 : h ++ str ":" ++ port = h ++ 58 :: port := by simp [str_colon]
      rw [e1, e2, addressHostOf_host_port _ port mph mp, addressHostOf_host_port h port mh mp,
        hdom]
  · intro hostURL1 hostURL2 u1 u2 address h1 h2 e1 e2
    rw [ShouldSkip_of_Parse _ address u1 h1, ShouldSkip_of_Parse _ address u2 h2, e1, e2, hdom]
  · intro hp hh address
    rw [ShouldSkip_of_Parse _ address _ (Parse_https_hostname _ (isHostname_prepend p h hp hh)),
      ShouldSkip_of_Parse _ address _ (Parse_https_hostname h hh)]
    simp only [hdom]

/-- Witness for C10: `proton.black` with the prefix `mail-api.pascal`, as target
host and as endpoint host; both decisions of the test are `false`. -/
theorem C10_subdomain_depth_ignored_witness :
    (NewBasicTLSDialer (str "https://proton.black")).ShouldSkipCertificateChainVerification
        (str "mail-api.pascal" ++ str "." ++ str "proton.black") =
      (NewBasicTLSDialer (str "https://proton.black")).ShouldSkipCertificateChainVerification
        (str "proton.black") ∧
    (NewBasicTLSDialer (str "https://proton.black")).ShouldSkipCertificateChainVerification
        (str "mail-api.pascal.proton.black") = false ∧
    (NewBasicTLSDialer (str "https://mail-api.pascal.proton.black")).ShouldSkipCertificateChainVerification
        (str "proton.black") = false :=
  ⟨((C10_subdomain_depth_ignored (str "mail-api.pascal") (str "proton.black") (by decide)).2.1
      (NewBasicTLSDialer (str "https://proton.black")) (by decide) (by decide)).1,
    by decide, by decide⟩

/-! ## Lemmas for the empty domain and for host names -/

theorem extractDomain_eq_nil_iff (h : GoString) : extractDomain h = [] ↔ h = [] := by
  constructor
  · intro he
    by_cases hlen : 2 ≤ (Split h 46).length
    · obtain ⟨front, a, b, _, h2⟩ := last_two_of_length _ hlen
      simp [extractDomain, hlen, h2, Join, str_dot] at he
    · simpa [extractDomain, hlen] using he
  · intro he
    subst he
    decide

theorem isHostname_no_colon (H : GoString) (hH : isHostname H = true) : 58 ∉ H := by
  intro h
  have := isHostname_mem H hH 58 h
  revert this
  decide

theorem CheckCertificate_skipped_total (p : TLSPinChecker) (conn : Conn) :
    ∃ r, p.CheckCertificate conn true = .ok r := by
  cases conn with
  | other => exact ⟨_, rfl⟩
  | tlsConn connState =>
    cases hpc : connState.PeerCertificates with
    | nil => exact ⟨some .noPeerCertificates, by simp [TLSPinChecker.CheckCertificate, hpc]⟩
    | cons first others =>
      by_cases hpin : p.isCertFoundInKnownPins first = true
      · exact ⟨none, by simp [TLSPinChecker.CheckCertificate, hpc, hpin]⟩
      · exact ⟨some .ErrTLSMismatch, by simp [TLSPinChecker.CheckCertificate, hpc, hpin]⟩

theorem CheckCertificate_verified_total (p : TLSPinChecker) (connState : ConnectionState)
    (hchains : ∀ chain ∈ connState.VerifiedChains, chain ≠ []) :
    ∃ r, p.CheckCertificate (.tlsConn connState) false = .ok r := by
  by_cases hne : connState.VerifiedChains = []
  · exact ⟨some .noVerifiedChains, by simp [TLSPinChecker.CheckCertificate, hne]⟩
  · rw [CheckCertificate_verified p connState hne]
    rcases checkVerifiedChains_result p _ hchains with h | h
    · exact ⟨_, h⟩
    · exact ⟨_, h⟩

/-! ## Lemmas on `url.Parse` for `https://host/path` -/

theorem IndexByte_append_of_not_mem (a b : GoString) (c : Nat) (h : c ∉ a) :
    IndexByte (a ++ b) c = (IndexByte b c).map (· + a.length) := by
  induction a with
  | nil => simp
  | cons x a ih =>
    have hx : x ≠ c := fun e => h (by simp [e])
    have ha : c ∉ a := fun e => h (by simp [e])
    simp only [List.cons_append, IndexByte, hx, if_false, List.append_eq, ih ha]
    cases IndexByte b c <;> simp [Nat.add_assoc]

theorem Cut_append_of_not_mem (a b : GoString) (c : Nat) (h : c ∉ a) :
    Cut (a ++ b) c = (a ++ (Cut b c).1, (Cut b c).2.1, (Cut b c).2.2) := by
  simp only [Cut, IndexByte_append_of_not_mem a b c h]
  cases hb : IndexByte b c with
  | none => simp
  | some i =>
    simp only [Option.map_some']
    rw [show i + a.length = a.length + i by omega,
      show a.length + i + 1 = a.length + (i + 1) by omega, List.take_append, List.drop_append]

theorem Cut_fst_initial_segment (s : GoString) (c : Nat) : (Cut s c).1 <+: s := by
  unfold Cut
  cases IndexByte s c with
  | none => exact List.prefix_refl s
  | some i => exact List.take_prefix i s

theorem Cut_snd_subset (s : GoString) (c : Nat) : (Cut s c).2.1 ⊆ s := by
  unfold Cut
  cases IndexByte s c with
  | none => simp
  | some i => exact (List.drop_suffix (i + 1) s).subset

theorem getScheme_https (X : GoString) :
    url.getScheme (str "https://" ++ X) = .ok (str "https", 47 :: 47 :: X) := by
  simp [url.getScheme, url.getSchemeLoop, str_https, str, utf8]

theorem parseAuthority_hostname (H : GoString) (hH : isHostname H = true) :
    url.parseAuthority H = .ok (none, H) := by
  have hb : ∀ c ∈ H, isHostnameByte c = true ∨ c = 58 :=
    fun c hc => Or.inl (isHostname_mem H hH c hc)
  have n64 : (64 : Nat) ∉ H := not_mem_of_bytes H 64 hb (by decide)
  simp [url.parseAuthority, LastIndexByte_eq_none H 64 n64, parseHost_hostname H hH]

theorem parse_https_hostname_path (H t1 : GoString) (hH : isHostname H = true) :
    ∃ t2 fq q, t2 <+: t1 ∧
      url.parse (str "https://" ++ (H ++ 47 :: t1)) false =
        if url.stringContainsCTLByte (H ++ 47 :: t1) then .error .invalidControlCharacter
        else
          match url.unescape (47 :: t2) .encodePath with
          | .error err => .error err
          | .ok path =>
            .ok { Scheme := str "https", Host := H, Path := path,
                  ForceQuery := fq, RawQuery := q } := by
  have hb : ∀ c ∈ H, isHostnameByte c = true ∨ c = 58 :=
    fun c hc => Or.inl (isHostname_mem H hH c hc)
  have n63 : (63 : Nat) ∉ H := not_mem_of_bytes H 63 hb (by decide)
  have n47 : (47 : Nat) ∉ H := not_mem_of_bytes H 47 hb (by decide)
  have hctlpre : url.stringContainsCTLByte (str "https://" ++ (H ++ 47 :: t1)) =
      url.stringContainsCTLByte (H ++ 47 :: t1) := by
    simp [url.stringContainsCTLByte, str_https]
  have hstar : str "https://" ++ (H ++ 47 :: t1) ≠ str "*" := by simp [str_https, str, utf8]
  have hsch := getScheme_https (H ++ 47 :: t1)
  have hlow : strings.ToLower (str "https") = str "https" := by decide
  have hne : str "https" ≠ [] := by decide
  have hs1 : ∀ X, strings.startsWith (47 :: 47 :: X) (str "/") = true := by
    intro X; simp [strings.startsWith, str, utf8]
  have hs2 : ∀ X, strings.startsWith (47 :: 47 :: X) (str "//") = true := by
    intro X; simp [strings.startsWith, str, utf8]
  have hidx : ∀ X, IndexByte (H ++ 47 :: X) 47 = some H.length := by
    intro X
    rw [IndexByte_append_of_not_mem H _ 47 n47]
    simp [IndexByte]
  have hauth := parseAuthority_hostname H hH
  by_cases hctl : url.stringContainsCTLByte (H ++ 47 :: t1) = true
  · refine ⟨[], false, [], List.nil_prefix, ?_⟩
    simp [url.parse, hctlpre, hctl]
  · by_cases hc : strings.endsWith (47 :: 47 :: (H ++ 47 :: t1)) (str "?") = true ∧
        strings.Count (47 :: 47 :: (H ++ 47 :: t1)) 63 = 1
    · have ht1 : t1 ≠ [] := by
        intro he
        subst he
        have : strings.Count (47 :: 47 :: (H ++ [47])) 63 = 0 := by
          simp [strings.Count, List.count_eq_zero.mpr n63]
        omega
      refine ⟨t1.dropLast, true, [], List.dropLast_prefix t1, ?_⟩
      have htake : List.take ((47 :: 47 :: (H ++ 47 :: t1)).length - 1)
          (47 :: 47 :: (H ++ 47 :: t1)) = 47 :: 47 :: (H ++ 47 :: t1.dropLast) := by
        rw [← List.dropLast_eq_take]
        have e : (47 :: 47 :: (H ++ 47 :: t1)) = (47 :: 47 :: (H ++ [47])) ++ t1 := by simp
        rw [e, List.dropLast_append_of_ne_nil _ ht1]
        simp
      simp only [url.parse, hctlpre, hctl, hstar, hsch, hlow, hc, htake]
      cases hu : url.unescape (47 :: t1.dropLast) .encodePath <;>
        simp [hs1, hs2, hne, hidx, hauth, hu]
    · refine ⟨(Cut t1 63).1, false, (Cut t1 63).2.1, Cut_fst_initial_segment _ _, ?_⟩
      have hcut : Cut (47 :: 47 :: (H ++ 47 :: t1)) 63 =
          (47 :: 47 :: (H ++ 47 :: (Cut t1 63).1), (Cut t1 63).2.1, (Cut t1 63).2.2) := by
        have := Cut_append_of_not_mem (47 :: 47 :: (H ++ [47])) t1 63 (by simp [n63])
        simpa using this
      simp only [url.parse, hctlpre, hctl, hstar, hsch, hlow, hc, hcut]
      cases hu : url.unescape (47 :: (Cut t1 63).1) .encodePath <;>
        simp [hs1, hs2, hne, hidx, hauth, hu]

theorem unescapeScan_no_percent (mode : url.encoding)
    (hm : mode = .encodePath ∨ mode = .encodeFragment) (s : GoString) (n : Nat)
    (hs : 37 ∉ s) : url.unescapeScan mode s n false = .ok (n, false) := by
  induction s with
  | nil => rfl
  | cons c t ih =>
    have hc : c ≠ 37 := fun e => hs (by simp [e])
    have ht := ih (fun e => hs (by simp [e]))
    rw [url.unescapeScan.eq_def]
    rcases hm with hm | hm <;> subst hm <;> by_cases h43 : c = 43 <;> simp [hc, h43, ht]

theorem unescape_no_percent (mode : url.encoding)
    (hm : mode = .encodePath ∨ mode = .encodeFragment) (s : GoString) (hs : 37 ∉ s) :
    url.unescape s mode = .ok s := by
  simp [url.unescape, unescapeScan_no_percent mode hm s 0 hs]

theorem Parse_https_hostname_path_cut (H t : GoString) (hH : isHostname H = true) :
    Cut (str "https://" ++ (H ++ 47 :: t)) 35 =
      (str "https://" ++ (H ++ 47 :: (Cut t 35).1), (Cut t 35).2.1, (Cut t 35).2.2) := by
  have hb : ∀ c ∈ H, isHostnameByte c = true ∨ c = 58 :=
    fun c hc => Or.inl (isHostname_mem H hH c hc)
  have n35 : (35 : Nat) ∉ H := not_mem_of_bytes H 35 hb (by decide)
  have := Cut_append_of_not_mem (str "https://" ++ (H ++ [47])) t 35
    (by simp [str_https, n35])
  simpa using this

theorem Parse_https_hostname_path_host (H t : GoString) (hH : isHostname H = true)
    (u : url.URL) (hu : url.Parse (str "https://" ++ (H ++ 47 :: t)) = .ok u) :
    u.Host = H := by
  obtain ⟨t2, fq, q, _, hp⟩ := parse_https_hostname_path H (Cut t 35).1 hH
  simp only [url.Parse, Parse_https_hostname_path_cut H t hH, hp] at hu
  by_cases hctl : url.stringContainsCTLByte (H ++ 47 :: (Cut t 35).1) = true
  · simp [hctl] at hu
  · cases hpath : url.unescape (47 :: t2) .encodePath with
    | error e => simp [hctl, hpath] at hu
    | ok path =>
      by_cases hf : (Cut t 35).2.1 = []
      · simp [hctl, hpath, hf] at hu
        rw [← hu]
      · cases hfr : url.unescape (Cut t 35).2.1 .encodeFragment with
        | error e => simp [hctl, hpath, hf, hfr] at hu
        | ok fragment =>
          simp [hctl, hpath, hf, hfr] at hu
          rw [← hu]

theorem Parse_https_hostname_path_ok (H t : GoString) (hH : isHostname H = true)
    (ht : ∀ c ∈ t, c ≠ 37 ∧ 32 ≤ c ∧ c ≠ 127) :
    ∃ u, url.Parse (str "https://" ++ (H ++ 47 :: t)) = .ok u := by
  obtain ⟨t2, fq, q, hpre, hp⟩ := parse_https_hostname_path H (Cut t 35).1 hH
  have hsub1 : (Cut t 35).1 ⊆ t := (Cut_fst_initial_segment t 35).subset
  have hctl : url.stringContainsCTLByte (H ++ 47 :: (Cut t 35).1) = false := by
    simp only [url.stringContainsCTLByte, List.any_eq_false]
    intro c hc
    simp only [List.mem_append, List.mem_cons] at hc
    rcases hc with hc | hc | hc
    · have := isHostnameByte_facts c (Or.inl (isHostname_mem H hH c hc))
      simp; omega
    · subst hc; decide
    · have := ht c (hsub1 hc)
      simp; omega
  have h37 : (37 : Nat) ∉ 47 :: t2 := by
    intro h
    simp only [List.mem_cons] at h
    rcases h with h | h
    · omega
    · exact (ht 37 (hsub1 (hpre.subset h))).1 rfl
  have h37f : (37 : Nat) ∉ (Cut t 35).2.1 := fun h => (ht 37 (Cut_snd_subset t 35 h)).1 rfl
  simp only [url.Parse, Parse_https_hostname_path_cut H t hH, hp, hctl,
    unescape_no_percent .encodePath (Or.inl rfl) _ h37,
    unescape_no_percent .encodeFragment (Or.inr rfl) _ h37f]
  by_cases hf : (Cut t 35).2.1 = []
  · simp [hf]
  · simp [hf]

/-! ## The claims, continued -/

/-- C11 (as amended): host names under a multi-label public suffix are judged
equal by the domain matcher.  For every suffix `s` of at least two labels, such
as `co.uk`, and all host names `x` and `y`, `extractDomain(x.s)` and
`extractDomain(y.s)` are both `extractDomain(s)`, so endpoint `https://x.s`
with address `y.s` makes `ShouldSkipCertificateChainVerification` return
`false`. -/
theorem C11_multi_label_suffix_judged_equal (x y s : GoString)
    (hx : isHostname x = true) (hy : isHostname y = true) (hs : isHostname s = true)
    (hlabels : 2 ≤ (strings.Split s 46).length) :
    extractDomain (x ++ str "." ++ s) = extractDomain s ∧
      extractDomain (y ++ str "." ++ s) = extractDomain s ∧
      (NewBasicTLSDialer (str "https://" ++ (x ++ str "." ++ s))).ShouldSkipCertificateChainVerification
        (y ++ str "." ++ s) = false := by
  have ex := extractDomain_prepend x s hlabels
  have ey := extractDomain_prepend y s hlabels
  refine ⟨ex, ey, ?_⟩
  rw [ShouldSkip_of_Parse _ _ _ (Parse_https_hostname _ (isHostname_prepend x s hx hs)),
    addressHostOf_no_colon _ (isHostname_no_colon _ (isHostname_prepend y s hy hs))]
  simp only [ex, ey, ne_eq, not_true_eq_false, decide_False]

/-- Witness for C11: `x.co.uk` and `y.co.uk`; both domains are `co.uk` and the
decision is `false`. -/
theorem C11_multi_label_suffix_judged_equal_witness :
    extractDomain (str "x" ++ str "." ++ str "co.uk") = extractDomain (str "co.uk") ∧
      extractDomain (str "y" ++ str "." ++ str "co.uk") = extractDomain (str "co.uk") ∧
      (NewBasicTLSDialer (str "https://" ++ (str "x" ++ str "." ++ str "co.uk"))).ShouldSkipCertificateChainVerification
        (str "y" ++ str "." ++ str "co.uk") = false :=
  C11_multi_label_suffix_judged_equal (str "x") (str "y") (str "co.uk")
    (by decide) (by decide) (by decide) (by decide)

/-- Counterexample to C11: `extractDomain` gives `co.uk` for both `x.co.uk` and
`y.co.uk`, and endpoint `https://x.co.uk` with address `y.co.uk` returns
`false`. -/
theorem C11_counterexample :
    extractDomain (str "x.co.uk") = str "co.uk" ∧
      extractDomain (str "y.co.uk") = str "co.uk" ∧
      (NewBasicTLSDialer (str "https://x.co.uk")).ShouldSkipCertificateChainVerification
        (str "y.co.uk") = false := by
  decide

/-- C12 (as amended): a path on an endpoint URL that parses is ignored.  For
every host name `H`, every path starting with `/` and every target address:
if `url.Parse` accepts `https://H` followed by the path, the parsed host is `H`
and the decision is that of endpoint `https://H`; if `url.Parse` rejects it,
the decision is `true`; and `url.Parse` accepts it, so that the decision is
that of `https://H`, whenever the path has no `%` and no control byte. -/
theorem C12_endpoint_path_ignored (H path address : GoString)
    (hH : isHostname H = true) (hpath : path.head? = some 47) :
    (∀ u, url.Parse (str "https://" ++ H ++ path) = .ok u →
        u.Host = H ∧
          (NewBasicTLSDialer (str "https://" ++ H ++ path)).ShouldSkipCertificateChainVerification
              address =
            (NewBasicTLSDialer (str "https://" ++ H)).ShouldSkipCertificateChainVerification
              address) ∧
      (∀ err, url.Parse (str "https://" ++ H ++ path) = .error err →
        (NewBasicTLSDialer (str "https://" ++ H ++ path)).ShouldSkipCertificateChainVerification
          address = true) ∧
      ((∀ c ∈ path, c ≠ 37 ∧ 32 ≤ c ∧ c ≠ 127) →
        (NewBasicTLSDialer (str "https://" ++ H ++ path)).ShouldSkipCertificateChainVerification
            address =
          (NewBasicTLSDialer (str "https://" ++ H)).ShouldSkipCertificateChainVerification
            address) := by
  cases path with
  | nil => simp at hpath
  | cons c t =>
    simp only [List.head?_cons, Option.some.injEq] at hpath
    subst hpath
    have e : str "https://" ++ H ++ 47 :: t = str "https://" ++ (H ++ 47 :: t) := by simp
    have key : ∀ u, url.Parse (str "https://" ++ H ++ 47 :: t) = .ok u →
        u.Host = H ∧
          (NewBasicTLSDialer (str "https://" ++ H ++ 47 :: t)).ShouldSkipCertificateChainVerification
              address =
            (NewBasicTLSDialer (str "https://" ++ H)).ShouldSkipCertificateChainVerification
              address := by
      intro u hu
      have hhost := Parse_https_hostname_path_host H t hH u (e ▸ hu)
      refine ⟨hhost, ?_⟩
      rw [ShouldSkip_of_Parse _ address u hu,
        ShouldSkip_of_Parse _ address _ (Parse_https_hostname H hH), hhost]
    refine ⟨key, ?_, ?_⟩
    · intro err herr
      rw [ShouldSkip_eq]
      simp only [NewBasicTLSDialer, herr]
    · intro hplain
      obtain ⟨u, hu⟩ := Parse_https_hostname_path_ok H t hH
        (fun c hc => hplain c (by simp [hc]))
      exact (key u (e ▸ hu)).2

/-- Witness for C12: endpoint `https://proton.me/api/v1` and address
`proton.me:443`; the decision is that of `https://proton.me`, `false`. -/
theorem C12_endpoint_path_ignored_witness :
    (NewBasicTLSDialer (str "https://" ++ str "proton.me" ++ str "/api/v1")).ShouldSkipCertificateChainVerification
        (str "proton.me:443") = false :=
  ((C12_endpoint_path_ignored (str "proton.me") (str "/api/v1") (str "proton.me:443")
    (by decide) (by decide)).2.2 (by decide)).trans (by decide)

/-- Counterexample to C12: the path `/%zz` starts with `/`; `url.Parse`
rejects `https://proton.me/%zz` (invalid URL escape), so with address
`proton.me:443` the decision is `true`, while endpoint `https://proton.me`
gives `false`. -/
theorem C12_counterexample :
    (str "/%zz").head? = some 47 ∧
      url.Parse (str "https://proton.me/%zz") = .error (.EscapeError (str "%zz")) ∧
      (NewBasicTLSDialer (str "https://proton.me/%zz")).ShouldSkipCertificateChainVerification
        (str "proton.me:443") = true ∧
      (NewBasicTLSDialer (str "https://proton.me")).ShouldSkipCertificateChainVerification
        (str "proton.me:443") = false :=
  ⟨by decide, rfl, by decide, by decide⟩

/-- C13: with the skip flag `false` and no verified chain, `CheckCertificate`
fails with the "no verified certificate chains" error, whatever the peer
certificates and the pinned set are; that error is not `ErrTLSMismatch`. -/
theorem C13_no_verified_chains (p : TLSPinChecker) (connState : ConnectionState)
    (hnone : connState.VerifiedChains = []) :
    p.CheckCertificate (.tlsConn connState) false = .ok (some .noVerifiedChains) ∧
      CheckError.noVerifiedChains ≠ CheckError.ErrTLSMismatch := by
  refine ⟨by simp [TLSPinChecker.CheckCertificate, hnone], by decide⟩

/-- Witness for C13: no verified chain, and a pinned peer certificate that the
flag `false` does not look at. -/
theorem C13_no_verified_chains_witness :
    (⟨[str "pinA"]⟩ : TLSPinChecker).CheckCertificate
        (.tlsConn { VerifiedChains := [], PeerCertificates := [⟨str "pinA"⟩] }) false =
      .ok (some .noVerifiedChains) :=
  (C13_no_verified_chains ⟨[str "pinA"]⟩
    { VerifiedChains := [], PeerCertificates := [⟨str "pinA"⟩] } rfl).1

/-- C14: with the skip flag `true` and no peer certificate, `CheckCertificate`
fails with the "no peer certificates available" error, whatever the verified
chains and the pinned set are; that error is not `ErrTLSMismatch`. -/
theorem C14_no_peer_certificates (p : TLSPinChecker) (connState : ConnectionState)
    (hnone : connState.PeerCertificates = []) :
    p.CheckCertificate (.tlsConn connState) true = .ok (some .noPeerCertificates) ∧
      CheckError.noPeerCertificates ≠ CheckError.ErrTLSMismatch := by
  refine ⟨by simp [TLSPinChecker.CheckCertificate, hnone], by decide⟩

/-- Witness for C14: no peer certificate, and a verified chain with a pinned
leaf that the flag `true` does not look at. -/
theorem C14_no_peer_certificates_witness :
    (⟨[str "pinA"]⟩ : TLSPinChecker).CheckCertificate
        (.tlsConn { VerifiedChains := [[⟨str "pinA"⟩]], PeerCertificates := [] }) true =
      .ok (some .noPeerCertificates) :=
  (C14_no_peer_certificates ⟨[str "pinA"]⟩
    { VerifiedChains := [[⟨str "pinA"⟩]], PeerCertificates := [] } rfl).1

/-- C15: for a connection that is not a TLS connection `CheckCertificate`
fails with the "connection is not a TLS connection" error, for both values of
the skip flag and every pinned set, and so never returns success. -/
theorem C15_not_a_tls_connection (p : TLSPinChecker) (skipped : Bool) :
    p.CheckCertificate .other skipped = .ok (some .notTLSConnection) ∧
      p.CheckCertificate .other skipped ≠ .ok none := by
  refine ⟨rfl, ?_⟩
  simp [TLSPinChecker.CheckCertificate]

/-- C16: for every target address, the `tls.Dialer` that `DialTLSContext`
builds and hands to `DialContext` has `InsecureSkipVerify` equal to
`ShouldSkipCertificateChainVerification(address)` for that address, so chain
verification is enabled exactly when the decision is `false`, and its net
dialer has a timeout of 30 seconds (30000000000 nanoseconds). -/
theorem C16_dial_uses_decision_and_timeout {Context Result : Type}
    (DialContext : tls.Dialer → Context → GoString → GoString → Result)
    (d : BasicTLSDialer) (ctx : Context) (network address : GoString) :
    d.DialTLSContext DialContext ctx network address =
        DialContext (d.DialTLSContext (fun dialer _ _ _ => dialer) ctx network address)
          ctx network address ∧
      (d.DialTLSContext (fun dialer _ _ _ => dialer) ctx network address).Config.InsecureSkipVerify =
        d.ShouldSkipCertificateChainVerification address ∧
      ((d.DialTLSContext (fun dialer _ _ _ => dialer) ctx network address).Config.InsecureSkipVerify
          = false ↔ d.ShouldSkipCertificateChainVerification address = false) ∧
      (d.DialTLSContext (fun dialer _ _ _ => dialer) ctx network address).NetDialer.Timeout =
        30 * time.Second ∧
      (30 * time.Second : time.Duration) = 30000000000 := by
  refine ⟨rfl, rfl, Iff.rfl, rfl, by decide⟩

/-- C17: the domain matcher applies no case normalization.  For every host
name `H`, `url.Parse` keeps the host of `https://H` byte for byte, and the
decision is `true` exactly when the two domains differ as byte strings; so
domains that differ only in letter case make it `true`. -/
theorem C17_no_case_normalization (H address : GoString) (hH : isHostname H = true) :
    url.Parse (str "https://" ++ H) = .ok { Scheme := str "https", Host := H } ∧
      ((NewBasicTLSDialer (str "https://" ++ H)).ShouldSkipCertificateChainVerification
          address = true ↔
        extractDomain (addressHostOf address) ≠ extractDomain H) ∧
      (strings.ToLower (extractDomain (addressHostOf address)) =
          strings.ToLower (extractDomain H) →
        extractDomain (addressHostOf address) ≠ extractDomain H →
        (NewBasicTLSDialer (str "https://" ++ H)).ShouldSkipCertificateChainVerification
          address = true) := by
  have hp := Parse_https_hostname H hH
  have hs := ShouldSkip_of_Parse _ address _ hp
  refine ⟨hp, ?_, ?_⟩
  · rw [hs]; simp
  · intro _ hne
    rw [hs]; simpa using hne

/-- Witness for C17: endpoint `https://Proton.me` and address `proton.me:443`;
the domains `Proton.me` and `proton.me` agree after lower-casing, differ as
written, and the decision is `true`. -/
theorem C17_no_case_normalization_witness :
    (NewBasicTLSDialer (str "https://" ++ str "Proton.me")).ShouldSkipCertificateChainVerification
        (str "proton.me:443") = true ∧
      extractDomain (addressHostOf (str "proton.me:443")) = str "proton.me" ∧
      extractDomain (str "Proton.me") = str "Proton.me" :=
  ⟨(C17_no_case_normalization (str "Proton.me") (str "proton.me:443") (by decide)).2.2
      (by decide) (by decide), by decide, by decide⟩

/-- C18: `CheckCertificate` does not index out of range under the guarantee of
the handshake layer.  If every verified chain of the connection is non-empty,
it returns a result (success or an error), not a panic, for both values of the
skip flag.  With the flag `true` this holds for every connection, the access
`PeerCertificates[0]` being guarded by the length check; with the flag `false`
it rests on the precondition: an empty verified chain makes `chain[0]` panic. -/
theorem C18_no_index_out_of_range (p : TLSPinChecker) (conn : Conn)
    (hchains : ∀ connState, conn = .tlsConn connState →
      ∀ chain ∈ connState.VerifiedChains, chain ≠ []) :
    (∀ skipped, ∃ r, p.CheckCertificate conn skipped = .ok r) ∧
      (∀ anyConn : Conn, ∃ r, p.CheckCertificate anyConn true = .ok r) ∧
      p.CheckCertificate (.tlsConn { VerifiedChains := [[]] }) false =
        .error .indexOutOfRange := by
  refine ⟨fun skipped => ?_, CheckCertificate_skipped_total p, rfl⟩
  cases skipped with
  | true => exact CheckCertificate_skipped_total p conn
  | false =>
    cases conn with
    | other => exact ⟨_, rfl⟩
    | tlsConn connState =>
      exact CheckCertificate_verified_total p connState (hchains connState rfl)

/-- Witness for C18: a connection with two non-empty verified chains and no
peer certificate gives a result for both values of the flag. -/
theorem C18_no_index_out_of_range_witness :
    (∃ r, (⟨[str "pinA"]⟩ : TLSPinChecker).CheckCertificate
        (.tlsConn { VerifiedChains := [[⟨str "leafX"⟩], [⟨str "leafY"⟩, ⟨str "pinA"⟩]] })
        false = .ok r) ∧
      (∃ r, (⟨[str "pinA"]⟩ : TLSPinChecker).CheckCertificate
        (.tlsConn { VerifiedChains := [[⟨str "leafX"⟩], [⟨str "leafY"⟩, ⟨str "pinA"⟩]] })
        true = .ok r) :=
  have h := (C18_no_index_out_of_range ⟨[str "pinA"]⟩
    (.tlsConn { VerifiedChains := [[⟨str "leafX"⟩], [⟨str "leafY"⟩, ⟨str "pinA"⟩]] })
    (by
      intro connState hc
      cases hc
      decide)).1
  ⟨h false, h true⟩

/-- C19: each mode of `CheckCertificate` reads only its own certificate
material.  With the flag `false` two connection states with the same verified
chains give the same result, whatever their peer certificates; with the flag
`true` two connection states with the same peer certificates give the same
result, whatever their verified chains. -/
theorem C19_modes_read_own_material (p : TLSPinChecker) (s1 s2 : ConnectionState) :
    (s1.VerifiedChains = s2.VerifiedChains →
        p.CheckCertificate (.tlsConn s1) false = p.CheckCertificate (.tlsConn s2) false) ∧
      (s1.PeerCertificates = s2.PeerCertificates →
        p.CheckCertificate (.tlsConn s1) true = p.CheckCertificate (.tlsConn s2) true) := by
  constructor
  · intro h
    simp [TLSPinChecker.CheckCertificate, h]
  · intro h
    simp [TLSPinChecker.CheckCertificate, h]

/-- Witness for C19: two connection states with the same verified chain and
different peer certificates, and the other way round. -/
theorem C19_modes_read_own_material_witness :
    (⟨[str "pinA"]⟩ : TLSPinChecker).CheckCertificate
        (.tlsConn { VerifiedChains := [[⟨str "pinA"⟩]], PeerCertificates := [⟨str "leafX"⟩] })
        false =
      (⟨[str "pinA"]⟩ : TLSPinChecker).CheckCertificate
        (.tlsConn { VerifiedChains := [[⟨str "pinA"⟩]], PeerCertificates := [] }) false ∧
    (⟨[str "pinA"]⟩ : TLSPinChecker).CheckCertificate
        (.tlsConn { VerifiedChains := [[⟨str "pinA"⟩]], PeerCertificates := [⟨str "leafX"⟩] })
        true =
      (⟨[str "pinA"]⟩ : TLSPinChecker).CheckCertificate
        (.tlsConn { VerifiedChains := [], PeerCertificates := [⟨str "leafX"⟩] }) true :=
  ⟨(C19_modes_read_own_material ⟨[str "pinA"]⟩
      { VerifiedChains := [[⟨str "pinA"⟩]], PeerCertificates := [⟨str "leafX"⟩] }
      { VerifiedChains := [[⟨str "pinA"⟩]], PeerCertificates := [] }).1 rfl,
   (C19_modes_read_own_material ⟨[str "pinA"]⟩
      { VerifiedChains := [[⟨str "pinA"⟩]], PeerCertificates := [⟨str "leafX"⟩] }
      { VerifiedChains := [], PeerCertificates := [⟨str "leafX"⟩] }).2 rfl⟩

/-- C20: when the endpoint URL parses but its host component is empty,
`ShouldSkipCertificateChainVerification` returns `true` for every target
address whose host is not empty, because `extractDomain(h)` is the empty
string only when `h` is the empty string. -/
theorem C20_empty_endpoint_host_skips (hostURL address : GoString) (parsedURL : url.URL)
    (hparse : url.Parse hostURL = .ok parsedURL) (hempty : parsedURL.Host = [])
    (hhost : addressHostOf address ≠ []) :
    (NewBasicTLSDialer hostURL).ShouldSkipCertificateChainVerification address = true ∧
      ∀ h, extractDomain h = [] ↔ h = [] := by
  refine ⟨?_, extractDomain_eq_nil_iff⟩
  rw [ShouldSkip_of_Parse _ address _ hparse, hempty]
  simp only [decide_eq_true_eq]
  intro he
  rw [(extractDomain_eq_nil_iff []).mpr rfl] at he
  exact hhost ((extractDomain_eq_nil_iff _).mp he)

/-- Witness for C20: the endpoint `proton.me`, without scheme and authority,
parses with the path `proton.me` and an empty host; with address
`proton.me:443` the decision is `true`. -/
theorem C20_empty_endpoint_host_skips_witness :
    url.Parse (str "proton.me") = .ok { Path := str "proton.me" } ∧
      (NewBasicTLSDialer (str "proton.me")).ShouldSkipCertificateChainVerification
        (str "proton.me:443") = true :=
  ⟨rfl, (C20_empty_endpoint_host_skips (str "proton.me") (str "proton.me:443")
    { Path := str "proton.me" } rfl rfl (by decide)).1⟩

end Dialer
